import Mathlib

/-!
Verification of the olympics-tv commentary pipeline against its specification.

The development is a shallow embedding of the core pipeline modules
(src/scrapers/source_resolver.py, source_scraper.py, commentary_editor.py,
pipeline_orchestrator.py, intro_orchestrator.py, commentary_scheduler.py).
Python strings are modelled as Lean String (character lists for the
separator-splitting parser), integers as Nat/Int, SQL timestamps as Int
seconds, dollar costs as Nat multiples of 10^-4 dollars (every cost in the
code is produced by round(x, 4), so sums of stage costs are exact at this
granularity), and the external collaborators (database rows, the search
provider, the page fetcher, the text generator, stdlib date formatting) as
explicit data or oracle functions passed to each component.
-/

namespace OlympicsTV

/-! ### Character-list helpers (Python str operations) -/

/-- Whitespace set of the Python str.strip default. -/
def isPySpace (c : Char) : Bool :=
  c = ' ' || c = '\t' || c = '\n' || c = '\r' || c = '\x0b' || c = '\x0c'

/-- Model of Python str.strip(): drop whitespace from both ends. -/
def trimChars (s : List Char) : List Char :=
  ((s.dropWhile isPySpace).reverse.dropWhile isPySpace).reverse

/-- Boolean test that the first list starts the second list. -/
def leadsWith : List Char → List Char → Bool
  | [], _ => true
  | _ :: _, [] => false
  | a :: as, b :: bs => a = b && leadsWith as bs

/-- Model of the Python split(sep, 1) search: the text before and after the
first occurrence of sep, or none when sep does not occur. -/
def splitFirst (sep : List Char) : List Char → Option (List Char × List Char)
  | [] => none
  | c :: rest =>
    if leadsWith sep (c :: rest) then some ([], (c :: rest).drop sep.length)
    else match splitFirst sep rest with
         | some (a, b) => some (c :: a, b)
         | none => none

/-- Model of the Python containment test (needle in hay) for a nonempty
needle. -/
def strContainsSub (hay needle : String) : Bool :=
  (splitFirst needle.toList hay.toList).isSome

/-- Model of Python str.replace(needle, repl) for a nonempty needle:
left-to-right, non-overlapping replacement of every occurrence. Fuel is the
input length, which bounds the number of occurrences. -/
def replaceAllFuel (needle repl : List Char) : Nat → List Char → List Char
  | 0, s => s
  | Nat.succ fuel, s =>
    match splitFirst needle s with
    | some (a, b) => a ++ repl ++ replaceAllFuel needle repl fuel b
    | none => s

def replaceAllChars (needle repl s : List Char) : List Char :=
  replaceAllFuel needle repl s.length s

/-- Model of urlparse(url).netloc (Python stdlib, external to the repo):
the text after the first scheme separator up to the first path, query or
fragment delimiter; empty when the url carries no scheme separator. -/
def netlocOf (url : String) : List Char :=
  match splitFirst "://".toList url.toList with
  | some (_, rest) => rest.takeWhile (fun c => c ≠ '/' && c ≠ '?' && c ≠ '#')
  | none => []

/-- Embedding of urlparse(url).netloc.replace(www., empty) as used by
source_scraper.py (fetch_article_text line 71 and scrape_for_event
line 185): both call sites compute the domain of a url by this same
expression. -/
def urlDomain (url : String) : String :=
  (replaceAllChars "www.".toList [] (netlocOf url)).asString

/-- Model of Python str.lower() for the ASCII range (event and discipline
names): upper-case letters shifted to lower case. -/
def lowerChar (c : Char) : Char :=
  if 'A' ≤ c ∧ c ≤ 'Z' then Char.ofNat (c.toNat + 32) else c

def pyLower (s : String) : String := (s.toList.map lowerChar).asString

/-- Model of the single-word case of Python str.title(), used for the
medal-tier names gold, silver, bronze, winner in source_resolver.py
line 169: first letter upper-cased, rest lower-cased. -/
def pyTitle (s : String) : String :=
  match s.toList with
  | [] => ""
  | c :: rest => (c.toUpper :: rest.map Char.toLower).asString

/-! ### Data model (spec section 3): results, queries, articles,
commentary rows -/

/-- Result row of an event, as loaded by get_event_context
(source_resolver.py lines 56-72). -/
structure ResultRow where
  name : String
  noc : String
  position : Option Int
  mark : Option String
  medal_type : Option String
  wlt : Option String
deriving DecidableEq, Repr

/-- Resolver query dict (source_resolver.py lines 148-179). The field qtype
models the dict key named type, which is a Lean keyword. -/
structure Query where
  qtype : String
  noc : Option String
  query : String
  reason : String
deriving DecidableEq, Repr

/-- Resolver output dict (source_resolver.py lines 184-192). -/
structure Resolved where
  event_unit_code : String
  event_label : String
  event_date : String
  discipline : String
  is_medal_event : Nat
  results : List ResultRow
  queries : List Query
deriving DecidableEq, Repr

/-- Per-article metadata kept in the persisted record
(pipeline_orchestrator.py lines 219-222). -/
structure SourceMeta where
  url : String
  domain : String
  title : String
  query_type : String
deriving DecidableEq, Repr

/-- Extraction returned by the page fetcher for one url (external
collaborator behind fetch_article_text). -/
structure Fetched where
  title : String
  text : String
  authors : List String
  publish_date : Option String
deriving DecidableEq, Repr

/-- Article dict built by fetch_article_text and completed by
scrape_for_event (source_scraper.py lines 88-95 and 203-205). -/
structure Article where
  url : String
  domain : String
  title : String
  text : String
  authors : List String
  publish_date : Option String
  query_type : String
  query_reason : String
  snippet : String
deriving DecidableEq, Repr

/-- Organic search result from the search provider (url and snippet are the
only keys the scraper reads). -/
structure SearchResult where
  link : String
  snippet : String
deriving DecidableEq, Repr

/-- Token usage and cost of one generator call (_call_claude,
commentary_editor.py lines 117-122). Costs are in units of 10^-4 dollars. -/
structure Usage where
  input_tokens : Nat
  output_tokens : Nat
  estimated_cost : Nat
deriving DecidableEq, Repr

/-- Successful generator call: text plus usage. -/
structure CallResult where
  content : String
  usage : Usage
deriving DecidableEq, Repr

/-- Usage dict of the writer call (commentary_writer.py lines 88-98). -/
structure WriterUsage where
  input_tokens : Nat
  output_tokens : Nat
  model : String
  prompt_version : String
  estimated_cost : Nat
deriving DecidableEq, Repr

/-- Writer output (commentary_writer.py lines 100-103). -/
structure WriterResult where
  content : String
  usage : WriterUsage
deriving DecidableEq, Repr

/-- Commentary record row (table commentary). The corrections note is
serialized inside raw_scrape_data next to the consolidated snapshot
(pipeline_orchestrator.py line 160); both are modelled as fields. -/
structure CommentaryRow where
  euc : String
  ctype : String
  status : String
  error_message : Option String
  content : Option String
  proofed_content : Option String
  sources : Option (List SourceMeta)
  consolidated : Option String
  corrections : Option String
  llm_model : String
  prompt_version : String
  input_tokens : Nat
  output_tokens : Nat
  est_cost : Nat
deriving DecidableEq, Repr

/-! ### Commentary editor (src/scrapers/commentary_editor.py) -/

/-- Medal-type display map shared by format_results_for_editor and
build_consolidated_file (medal_map in both files, with .get falling back to
the raw value). -/
def medalLabel (mt : String) : String :=
  if mt = "ME_GOLD" then "Gold"
  else if mt = "ME_SILVER" then "Silver"
  else if mt = "ME_BRONZE" then "Bronze"
  else mt

/-- Medal suffix of one result line: present only when medal_type is truthy
(non-null, nonempty). -/
def medalSuffix (r : ResultRow) : String :=
  match r.medal_type with
  | some mt => if mt ≠ "" then " [" ++ medalLabel mt ++ "]" else ""
  | none => ""

/-- Python rendering of a possibly-null mark inside an f-string: None prints
as the text None. -/
def renderOptStr (o : Option String) : String := o.getD "None"

/-- Position text in format_results_for_editor (line 138): hash-position
when position is truthy, else the wlt letter (empty default). -/
def posStrEditor (r : ResultRow) : String :=
  match r.position with
  | some p => if p ≠ 0 then "#" ++ toString p else r.wlt.getD ""
  | none => r.wlt.getD ""

/-- Embedding of format_results_for_editor (lines 130-140). -/
def format_results_for_editor (resolved : Resolved) : String :=
  String.intercalate "\n" (resolved.results.map (fun r =>
    posStrEditor r ++ " " ++ r.name ++ " (" ++ r.noc ++ ") - "
      ++ renderOptStr r.mark ++ medalSuffix r))

/-- Embedding of format_sources_summary (lines 143-150). -/
def format_sources_summary (ms : List SourceMeta) : String :=
  if ms = [] then "No external sources were available."
  else String.intercalate "\n" ((List.enumFrom 1 ms).map (fun p =>
    "Source " ++ toString p.1 ++ " (" ++ p.2.domain ++ "): " ++ p.2.title))

/-- Prompt of the fact-checker call (fact_check, lines 157-176). -/
def factCheckPrompt (commentary : String) (resolved : Resolved)
    (ms : List SourceMeta) (consolidated_text : String) : String :=
  let results_text := format_results_for_editor resolved
  let source_section :=
    if consolidated_text ≠ "" then consolidated_text else format_sources_summary ms
  "Fact-check this Olympic commentary.\n\n=== RESULTS (ground truth from official database) ===\n"
    ++ results_text
    ++ "\n\n=== SOURCE ARTICLES THE WRITER USED ===\n"
    ++ source_section
    ++ "\n\n=== COMMENTARY TO FACT-CHECK ===\n"
    ++ commentary
    ++ "\n\nCheck every factual claim now. Classify each as VERIFIED, SOURCED, CONTRADICTS, or UNSOURCED."

/-- Literal separator between the issues list and the corrected text in the
fact-checker output format. -/
def factCheckSep : List Char := ['-', '-', '-']

/-- Embedding of the parsing step of fact_check (lines 183-192): when the
literal separator occurs in the generator output, split on its first
occurrence into stripped issues and stripped corrected text; otherwise the
whole output is the corrected text with empty issues. The source guards with
a containment test and then calls split(sep, 1), which is exactly a split at
the first occurrence. -/
def parse_factcheck_output (full_output : List Char) : List Char × List Char :=
  match splitFirst factCheckSep full_output with
  | some (a, b) => (trimChars a, trimChars b)
  | none => ([], full_output)

/-- Fact-check result dict (lines 194-198). -/
structure FactCheckResult where
  factchecked_content : String
  issues : String
  usage : Usage
deriving DecidableEq, Repr

/-- Embedding of fact_check (lines 157-198), with the generator modelled as
an oracle from the prompt to an optional call result. -/
def fact_check (callFc : String → Option CallResult) (commentary : String)
    (resolved : Resolved) (ms : List SourceMeta) (consolidated_text : String) :
    Option FactCheckResult :=
  match callFc (factCheckPrompt commentary resolved ms consolidated_text) with
  | none => none
  | some r =>
    let p := parse_factcheck_output r.content.toList
    some ⟨p.2.asString, p.1.asString, r.usage⟩

/-- Prompt of the prose-editor call (prose_edit, lines 201-205). -/
def prosePrompt (commentary : String) : String :=
  "Polish the prose of this Olympic commentary. Do not change any facts.\n\n" ++ commentary

/-- Prose-edit result dict (lines 212-215). -/
structure ProseResult where
  polished_content : String
  usage : Usage
deriving DecidableEq, Repr

/-- Embedding of prose_edit (lines 201-215). -/
def prose_edit (callPe : String → Option CallResult) (commentary : String) :
    Option ProseResult :=
  match callPe (prosePrompt commentary) with
  | none => none
  | some r => some ⟨r.content, r.usage⟩

/-- Shape of the usage entry of the editor result: empty dict on verifier
failure, the verification-stage usage on prose failure, or the combined dict
of both stages (lines 237-272). -/
inductive EditUsage where
  | empty : EditUsage
  | single : Usage → EditUsage
  | combined : Usage → Usage → EditUsage
deriving DecidableEq, Repr

/-- Editor result dict (lines 228-283). -/
structure EditResult where
  proofed_content : String
  corrections : String
  usage : EditUsage
  estimated_cost : Nat
deriving DecidableEq, Repr

/-- Embedding of edit_commentary (lines 222-283): run the fact-checker; on
failure return the original draft with the failure note and zero cost; then
run the prose pass on the fact-checked text; on failure return the
fact-checked text with the fact-check issues and the fact-check usage; on
success return the polished text, the fact-check issues and the summed cost
(round(total, 4) is the identity at the 10^-4-dollar granularity of the
stage costs). -/
def edit_commentary (callFc callPe : String → Option CallResult)
    (commentary : String) (resolved : Resolved) (ms : List SourceMeta)
    (consolidated_text : String) : EditResult :=
  match fact_check callFc commentary resolved ms consolidated_text with
  | none => ⟨commentary, "Fact-checker failed", EditUsage.empty, 0⟩
  | some fc =>
    match prose_edit callPe fc.factchecked_content with
    | none =>
      ⟨fc.factchecked_content, fc.issues, EditUsage.single fc.usage,
        fc.usage.estimated_cost⟩
    | some pe =>
      ⟨pe.polished_content, fc.issues, EditUsage.combined fc.usage pe.usage,
        fc.usage.estimated_cost + pe.usage.estimated_cost⟩

/-! ### Source scraper (src/scrapers/source_scraper.py) -/

/-- Low-value domains that are always skipped (SKIP_DOMAINS, lines 27-31). -/
def SKIP_DOMAINS : List String :=
  ["youtube.com", "twitter.com", "x.com", "facebook.com",
   "instagram.com", "tiktok.com", "reddit.com",
   "pinterest.com", "linkedin.com"]

def MAX_ARTICLES_PER_QUERY : Nat := 3

def MAX_TOTAL_ARTICLES : Nat := 12

/-- Embedding of fetch_article_text (lines 69-101) with the network fetch
and text extraction (newspaper3k or the HTML-stripping fallback, both
external) as an oracle: a url on a skip-listed domain is never fetched, and
an extraction whose stripped text is shorter than 200 characters is
discarded. The query fields are filled in later by the scrape loop. -/
def fetch_article_text (fetchOracle : String → Option Fetched) (url : String) :
    Option Article :=
  let domain := urlDomain url
  if domain ∈ SKIP_DOMAINS then none
  else
    match fetchOracle url with
    | none => none
    | some d =>
      let text := (trimChars d.text.toList).asString
      if text.length < 200 then none
      else some ⟨url, domain, d.title, text, d.authors, d.publish_date, "", "", ""⟩

/-- Mutable state of the scrape loop (all_articles, seen_urls, seen_domains
in scrape_for_event, lines 166-168). The Python sets are modelled as lists
whose membership is what the code tests. -/
structure ScrapeState where
  articles : List Article
  seen_urls : List String
  seen_domains : List String
deriving Repr

/-- Embedding of the inner result loop of scrape_for_event (lines 178-211)
for one query: per-query and total ceilings break the loop, an already-seen
url or a domain that already contributed two articles is skipped, the url is
recorded as seen before fetching, and a successful fetch appends the article
tagged with the query and adds the domain to the seen set. -/
def scrapeLoop (fetchOracle : String → Option Fetched)
    (qtype qreason : String) : List SearchResult → ScrapeState → Nat → ScrapeState
  | [], st, _ => st
  | r :: rest, st, cnt =>
    if MAX_ARTICLES_PER_QUERY ≤ cnt then st
    else if MAX_TOTAL_ARTICLES ≤ st.articles.length then st
    else
      let url := r.link
      let domain := urlDomain url
      if url ∈ st.seen_urls then scrapeLoop fetchOracle qtype qreason rest st cnt
      else if domain ∈ st.seen_domains
          ∧ 2 ≤ (st.articles.filter (fun a => a.domain = domain)).length then
        scrapeLoop fetchOracle qtype qreason rest st cnt
      else
        match fetch_article_text fetchOracle url with
        | some a =>
          scrapeLoop fetchOracle qtype qreason rest
            ⟨st.articles ++
                [{ a with
                    query_type := qtype
                    query_reason := qreason
                    snippet := r.snippet }],
              url :: st.seen_urls, domain :: st.seen_domains⟩ (cnt + 1)
        | none =>
          scrapeLoop fetchOracle qtype qreason rest
            ⟨st.articles, url :: st.seen_urls, st.seen_domains⟩ cnt

/-- Embedding of scrape_for_event (lines 155-214) over the queries field of
the resolver output: iterate the queries, searching each and folding the
per-query loop over the organic results. -/
def scrape_for_event (searchOracle : String → List SearchResult)
    (fetchOracle : String → Option Fetched) (queries : List Query) :
    List Article :=
  (queries.foldl
    (fun st q => scrapeLoop fetchOracle q.qtype q.reason (searchOracle q.query) st 0)
    ⟨[], [], []⟩).articles

/-- Wlt display map of build_consolidated_file (lines 243-245). -/
def wltLabelScraper (r : ResultRow) : String :=
  match r.wlt with
  | some w =>
    if w ≠ "" then
      if w = "W" then "Winner" else if w = "L" then "Loser"
      else if w = "T" then "Tie" else w
    else ""
  | none => ""

/-- Result line of the consolidated document (lines 234-248). -/
def resultLineScraper (r : ResultRow) : String :=
  let medal := medalSuffix r
  let pos :=
    match r.position with
    | some p => if p ≠ 0 then "#" ++ toString p else wltLabelScraper r
    | none => wltLabelScraper r
  "  " ++ pos ++ " " ++ r.name ++ " (" ++ r.noc ++ ") - "
    ++ renderOptStr r.mark ++ medal

/-- Event-context block of the consolidated document (lines 225-230). -/
def contextLines (resolved : Resolved) : List String :=
  ["=== EVENT CONTEXT ===",
   "Event: " ++ resolved.event_label,
   "Date: " ++ resolved.event_date,
   "Discipline: " ++ resolved.discipline,
   "Medal Event: " ++ (if resolved.is_medal_event ≠ 0 then "Yes" else "No"),
   ""]

/-- Results block of the consolidated document (lines 233-249). -/
def resultsLines (resolved : Resolved) : List String :=
  "=== RESULTS (from database - ground truth) ==="
    :: resolved.results.map resultLineScraper ++ [""]

/-- One source block of the consolidated document (lines 253-265). -/
def articleBlock (i : Nat) (a : Article) : List String :=
  ["=== SOURCE " ++ toString i ++ ": " ++ a.domain ++ " ===",
   "URL: " ++ a.url,
   "Title: " ++ a.title]
  ++ (if a.authors ≠ [] then ["Authors: " ++ String.intercalate ", " a.authors] else [])
  ++ (match a.publish_date with
      | some d => if d ≠ "" then ["Published: " ++ d] else []
      | none => [])
  ++ ["Found via: " ++ a.query_type ++ " search - " ++ a.query_reason,
      "Snippet: " ++ a.snippet,
      "---",
      a.text,
      ""]

/-- Source section of the consolidated document (lines 252-270): one block
per accepted article, and the no-sources marker exactly when the article
list is empty. -/
def sourcesLines (articles : List Article) : List String :=
  ((List.enumFrom 1 articles).map (fun p => articleBlock p.1 p.2)).flatten
  ++ (if articles = [] then
        ["=== NO SOURCES FOUND ===",
         "No articles could be fetched for this event.",
         ""]
      else [])

/-- Line list of the consolidated document (build_consolidated_file,
lines 217-272). -/
def build_consolidated_lines (resolved : Resolved) (articles : List Article) :
    List String :=
  contextLines resolved ++ resultsLines resolved ++ sourcesLines articles

/-- Embedding of build_consolidated_file: the lines joined by newlines. -/
def build_consolidated_file (resolved : Resolved) (articles : List Article) :
    String :=
  String.intercalate "\n" (build_consolidated_lines resolved articles)

/-! ### Source resolver (src/scrapers/source_resolver.py) -/

/-- Event context loaded by get_event_context (lines 34-74); the database
read is modelled as data. -/
structure EventContext where
  discipline : String
  event : String
  unit_name : String
  start_time : Int
  medal_flag : Nat
  results : List ResultRow
deriving DecidableEq, Repr

/-- Medal-tier NOC dict built by get_medal_nocs (lines 77-96). -/
structure MedalNocs where
  gold : Option String
  silver : Option String
  bronze : Option String
  winner : Option String
deriving DecidableEq, Repr

/-- First loop of get_medal_nocs (lines 80-86): first NOC per medal tier. -/
def medalTierNocs (results : List ResultRow) : MedalNocs :=
  results.foldl (fun acc r =>
    if r.medal_type = some "ME_GOLD" ∧ acc.gold = none then
      { acc with gold := some r.noc }
    else if r.medal_type = some "ME_SILVER" ∧ acc.silver = none then
      { acc with silver := some r.noc }
    else if r.medal_type = some "ME_BRONZE" ∧ acc.bronze = none then
      { acc with bronze := some r.noc }
    else acc) ⟨none, none, none, none⟩

/-- Embedding of get_medal_nocs (lines 77-96): medal tiers, with the winner
fallback loop (wlt W or first place) only when no medal NOC was found. -/
def get_medal_nocs (results : List ResultRow) : MedalNocs :=
  let m := medalTierNocs results
  if m.gold = none ∧ m.silver = none ∧ m.bronze = none then
    { m with winner := results.foldl (fun w r =>
        if r.wlt = some "W" ∧ w = none then some r.noc
        else if r.position = some 1 ∧ w = none then some r.noc
        else w) none }
  else m

/-- Embedding of build_event_label (lines 111-120): the event name alone
when it already contains the discipline (case-insensitive), else discipline
and event name concatenated. -/
def build_event_label (discipline event : String) : String :=
  if strContainsSub (pyLower event) (pyLower discipline) then event
  else discipline ++ " " ++ event

/-- List of tier name and optional NOC pairs iterated by the query loop
(line 157). -/
def tierList (m : MedalNocs) : List (String × Option String) :=
  [("gold", m.gold), ("silver", m.silver), ("bronze", m.bronze), ("winner", m.winner)]

/-- One step of the medal-country query loop (lines 155-170): skip a missing
or already-seen NOC, otherwise mark USA coverage, record the NOC and append
the country query. State is (usa_covered, seen_nocs, queries). -/
def tierFoldStep (countryName : String → Option String) (event_label : String)
    (st : Bool × List String × List Query) (t : String × Option String) :
    Bool × List String × List Query :=
  match t.2 with
  | none => st
  | some noc =>
    if noc = "" ∨ noc ∈ st.2.1 then st
    else
      (st.1 || noc = "USA", noc :: st.2.1,
        st.2.2 ++ [⟨t.1 ++ "_country", some noc,
          (countryName noc).getD noc ++ " " ++ event_label ++ " 2026 Olympics",
          pyTitle t.1 ++ " medal country perspective"⟩])

/-- Embedding of the query construction of resolve_sources (lines 140-179):
the general query, one query per distinct medal or winner NOC in tier order,
and the USA query unless USA was already covered. The country_sources lookup
is an oracle from NOC to display name, with the NOC itself as fallback. -/
def resolve_queries (ctx : EventContext) (countryName : String → Option String) :
    List Query :=
  let event_label := build_event_label ctx.discipline ctx.event
  let general_label :=
    if ctx.medal_flag ≠ 0 then event_label ++ " 2026 Winter Olympics results"
    else event_label ++ " " ++ ctx.unit_name ++ " 2026 Winter Olympics results"
  let q0 : Query := ⟨"general", none, general_label, "Main event coverage"⟩
  let st := (tierList (get_medal_nocs ctx.results)).foldl
    (tierFoldStep countryName event_label) (false, [], [q0])
  if st.1 then st.2.2
  else st.2.2 ++ [⟨"usa", some "USA",
    "Team USA " ++ event_label ++ " 2026 Olympics", "US audience perspective"⟩]

/-- Embedding of resolve_sources (lines 123-192): none when the event is not
found, else the resolver output dict. Date formatting (strftime, stdlib) is
an oracle from the timestamp. -/
def resolve_sources (getContext : String → Option EventContext)
    (countryName : String → Option String) (dateFmt : Int → String)
    (event_unit_code : String) : Option Resolved :=
  match getContext event_unit_code with
  | none => none
  | some ctx =>
    some ⟨event_unit_code, build_event_label ctx.discipline ctx.event,
      dateFmt ctx.start_time, ctx.discipline, ctx.medal_flag, ctx.results,
      resolve_queries ctx countryName⟩

end OlympicsTV

namespace OlympicsTV

/-! ### Commentary store operations (pipeline_orchestrator.py,
intro_orchestrator.py) -/

/-- Number of commentary rows stored under one (event, commentary_type)
key. -/
def keyCount (euc ctype : String) (db : List CommentaryRow) : Nat :=
  (db.filter (fun c => c.euc == euc && c.ctype == ctype)).length

/-- Invariant: at most one commentary record per (event, commentary_type). -/
def atMostOnePerKey (db : List CommentaryRow) : Prop :=
  ∀ euc ctype, keyCount euc ctype db ≤ 1

/-- Fresh row written by the INSERT branch of update_commentary_status
(pipeline_orchestrator.py lines 110-114): only key, status and timestamps
are set, text columns stay null. -/
def freshRow (euc ctype status : String) : CommentaryRow :=
  ⟨euc, ctype, status, none, none, none, none, none, none, "", "", 0, 0, 0⟩

/-- Embedding of update_commentary_status (pipeline_orchestrator.py lines
86-118): look up the (event, type) row; update status (and the error message
when one is given, Python truthiness: non-null and nonempty) in place when
it exists, insert a fresh row otherwise. The SQL UPDATE touches every
matching row, hence the map. -/
def update_commentary_status (euc status : String) (err : Option String)
    (ctype : String) (db : List CommentaryRow) : List CommentaryRow :=
  if db.any (fun c => c.euc == euc && c.ctype == ctype) then
    db.map (fun c =>
      if c.euc == euc && c.ctype == ctype then
        if (err.getD "") ≠ "" then { c with status := status, error_message := err }
        else { c with status := status }
      else c)
  else db ++ [freshRow euc ctype status]

/-- Embedding of save_commentary (pipeline_orchestrator.py lines 122-173):
an UPDATE of the (event, post_event) row with content, proofed content,
sources, consolidated snapshot plus corrections, model and prompt version,
and status proofed. The token and cost columns receive zero because the
source reads them from a usage key that the dict passed by process_event
does not contain (line 136 tests for a nested usage entry). -/
def save_commentary (euc content proofed : String)
    (sources_meta : List SourceMeta) (raw : String)
    (writer_usage : WriterUsage) (editor_result : Option EditResult)
    (db : List CommentaryRow) : List CommentaryRow :=
  let corrections := match editor_result with
    | some er => er.corrections
    | none => ""
  db.map (fun c =>
    if c.euc == euc && c.ctype == "post_event" then
      { c with
          content := some content
          proofed_content := some proofed
          sources := some sources_meta
          consolidated := some raw
          corrections := some corrections
          status := "proofed"
          llm_model := writer_usage.model
          prompt_version := writer_usage.prompt_version
          input_tokens := 0
          output_tokens := 0
          est_cost := 0 }
    else c)

/-- Outcome of one orchestrator run: the store afterwards, the returned
success flag, and a trace of the external calls made (the argument passed to
the writer and to the editor when they were called, and whether the
editor-returned-nothing fallback save ran). -/
structure ProcOut where
  db : List CommentaryRow
  ok : Bool
  writerCalledWith : Option String
  editorCalledWith : Option String
  usedEditorFallbackSave : Bool

/-- External collaborators of one post-event pipeline run. -/
structure PostOracles where
  getContext : String → Option EventContext
  countryName : String → Option String
  dateFmt : Int → String
  search : String → List SearchResult
  fetch : String → Option Fetched
  write : String → Option WriterResult
  edit : String → Resolved → List SourceMeta → String → Option EditResult

/-- Embedding of pipeline_orchestrator.process_event (lines 176-265),
dry_run false: resolve (failure marks the record failed and stops), mark
scraping and scrape (an empty article list is not a failure), build the
consolidated document and source metadata, mark writing and write (failure
marks failed and stops), edit (a missing editor result saves the unedited
draft as both content and proofed content), save with status proofed. -/
def process_event (o : PostOracles) (euc : String) (db : List CommentaryRow) :
    ProcOut :=
  match resolve_sources o.getContext o.countryName o.dateFmt euc with
  | none =>
    ⟨update_commentary_status euc "failed" (some "Source resolution failed")
      "post_event" db, false, none, none, false⟩
  | some resolved =>
    let db1 := update_commentary_status euc "scraping" none "post_event" db
    let articles := scrape_for_event o.search o.fetch resolved.queries
    let consolidated := build_consolidated_file resolved articles
    let sources_meta := articles.map (fun a =>
      SourceMeta.mk a.url a.domain a.title a.query_type)
    let db2 := update_commentary_status euc "writing" none "post_event" db1
    match o.write consolidated with
    | none =>
      ⟨update_commentary_status euc "failed" (some "Writer LLM call failed")
        "post_event" db2, false, some consolidated, none, false⟩
    | some wr =>
      match o.edit wr.content resolved sources_meta consolidated with
      | none =>
        ⟨save_commentary euc wr.content wr.content sources_meta consolidated
          wr.usage none db2, true, some consolidated, some wr.content, true⟩
      | some er =>
        ⟨save_commentary euc wr.content er.proofed_content sources_meta
          consolidated wr.usage (some er) db2, true, some consolidated,
          some wr.content, false⟩

/-! ### Intro orchestrator (src/scrapers/intro_orchestrator.py) -/

/-- Upcoming schedule unit handed to the intro orchestrator
(get_upcoming_events rows, lines 75-83). -/
structure UpEvent where
  euc : String
  discipline : String
  event : String
  unit_name : String
  medal_flag : Nat
  start_time : Int
  status : String
deriving DecidableEq, Repr

/-- Preview resolver output (build_preview_queries, lines 124-132). -/
structure PreResolved where
  event_unit_code : String
  event_label : String
  discipline : String
  start_time : Int
  is_medal_event : Nat
  unit_name : String
  queries : List Query
deriving DecidableEq, Repr

/-- Embedding of build_preview_queries (lines 90-132): the label rule shared
with the resolver, then the fixed preview, contenders and usa queries. -/
def build_preview_queries (ev : UpEvent) : PreResolved :=
  let event_label :=
    if strContainsSub (pyLower ev.event) (pyLower ev.discipline) then ev.event
    else ev.discipline ++ " " ++ ev.event
  ⟨ev.euc, event_label, ev.discipline, ev.start_time, ev.medal_flag,
    ev.unit_name,
    [⟨"preview", none, event_label ++ " 2026 Winter Olympics preview",
        "General event preview"⟩,
      ⟨"contenders", none, event_label ++ " 2026 Olympics favorites contenders",
        "Key athletes and favorites"⟩,
      ⟨"usa", none, "Team USA " ++ event_label ++ " 2026 Olympics",
        "US athlete perspective"⟩]⟩

/-- Source section of the preview consolidated document (lines 147-165):
article blocks, and in the zero-article case the no-sources marker with the
preview wording. -/
def sourcesLinesPre (articles : List Article) : List String :=
  ((List.enumFrom 1 articles).map (fun p => articleBlock p.1 p.2)).flatten
  ++ (if articles = [] then
        ["=== NO SOURCES FOUND ===",
         "No preview articles could be found for this event.",
         ""]
      else [])

/-- Embedding of build_preview_consolidated (lines 135-166): event context
(no results section, previews have no ground truth), then source blocks. -/
def build_preview_consolidated (r : PreResolved) (articles : List Article)
    (dateFmt : Int → String) : String :=
  String.intercalate "\n" (
    ["=== EVENT CONTEXT ===",
     "Event: " ++ r.event_label,
     "Discipline: " ++ r.discipline,
     "Scheduled: " ++ dateFmt r.start_time ++ " CET",
     "Medal Event: " ++ (if r.is_medal_event ≠ 0 then "Yes" else "No"),
     "Unit: " ++ r.unit_name,
     ""]
    ++ sourcesLinesPre articles)

/-- Embedding of intro_orchestrator.update_status (lines 169-200): the same
look-up-then-update-or-insert algorithm as update_commentary_status with the
commentary type fixed to pre_event. -/
def update_status (euc status : String) (err : Option String)
    (db : List CommentaryRow) : List CommentaryRow :=
  update_commentary_status euc status err "pre_event" db

/-- Embedding of save_intro (lines 203-237): an UPDATE of the
(event, pre_event) row; unlike save_commentary no token columns exist in
this statement. -/
def save_intro (euc content proofed : String) (sources_meta : List SourceMeta)
    (raw : String) (writer_usage : WriterUsage)
    (editor_result : Option EditResult) (db : List CommentaryRow) :
    List CommentaryRow :=
  let corrections := match editor_result with
    | some er => er.corrections
    | none => ""
  db.map (fun c =>
    if c.euc == euc && c.ctype == "pre_event" then
      { c with
          content := some content
          proofed_content := some proofed
          sources := some sources_meta
          consolidated := some raw
          corrections := some corrections
          status := "proofed"
          llm_model := writer_usage.model
          prompt_version := writer_usage.prompt_version }
    else c)

/-- External collaborators of one pre-event pipeline run. -/
structure PreOracles where
  search : String → List SearchResult
  fetch : String → Option Fetched
  dateFmt : Int → String
  write : String → Option WriterResult
  edit : String → String → Option EditResult

/-- Embedding of intro_orchestrator.process_event (lines 240-315), dry_run
false: build preview queries, mark scraping, scrape; with zero articles mark
failed with the no-preview-sources reason and stop before the writer;
otherwise mark writing, write (failure marks failed and stops), edit (a
missing editor result saves the unedited draft), save with status
proofed. -/
def intro_process_event (o : PreOracles) (ev : UpEvent)
    (db : List CommentaryRow) : ProcOut :=
  let resolved := build_preview_queries ev
  let euc := ev.euc
  let db1 := update_status euc "scraping" none db
  let articles := scrape_for_event o.search o.fetch resolved.queries
  let consolidated := build_preview_consolidated resolved articles o.dateFmt
  let sources_meta := articles.map (fun a =>
    SourceMeta.mk a.url a.domain a.title a.query_type)
  if articles = [] then
    ⟨update_status euc "failed" (some "No preview sources found") db1,
      false, none, none, false⟩
  else
    let db2 := update_status euc "writing" none db1
    match o.write consolidated with
    | none =>
      ⟨update_status euc "failed" (some "Writer LLM call failed") db2,
        false, some consolidated, none, false⟩
    | some wr =>
      match o.edit wr.content consolidated with
      | none =>
        ⟨save_intro euc wr.content wr.content sources_meta consolidated
          wr.usage none db2, true, some consolidated, some wr.content, true⟩
      | some er =>
        ⟨save_intro euc wr.content er.proofed_content sources_meta consolidated
          wr.usage (some er) db2, true, some consolidated,
          some wr.content, false⟩

/-! ### Run sequences of the two orchestrators -/

/-- One orchestrator invocation: a post-event run on an event identifier or
a pre-event run on an upcoming event, each with its collaborators. -/
inductive RunSpec where
  | post : PostOracles → String → RunSpec
  | pre : PreOracles → UpEvent → RunSpec

/-- Commentary key a run writes under. -/
def runKey : RunSpec → String × String
  | .post _ euc => (euc, "post_event")
  | .pre _ ev => (ev.euc, "pre_event")

/-- Store after one run. -/
def execRun : RunSpec → List CommentaryRow → List CommentaryRow
  | .post o euc, db => (process_event o euc db).db
  | .pre o ev, db => (intro_process_event o ev db).db

/-- Store after a sequence of runs. -/
def execRuns : List RunSpec → List CommentaryRow → List CommentaryRow
  | [], db => db
  | r :: rs, db => execRuns rs (execRun r db)

/-! ### Scheduler eligibility query (src/scrapers/commentary_scheduler.py) -/

/-- Schedule unit columns the post-event eligibility query reads. -/
structure SU where
  euc : String
  medal_flag : Nat
  start_time : Int
deriving DecidableEq, Repr

/-- Result row columns the scheduler joins on: the event key and the time
the result row was detected (detected_at, written at insert time by
populate_results). -/
structure ResRow where
  euc : String
  detected_at : Int
deriving DecidableEq, Repr

/-- Exclusion status set of the post-event query (line 178). -/
def postExclusionStatuses : List String :=
  ["published", "proofed", "writing", "analyzing"]

/-- Ordering of the post-event query (line 181): medal_flag descending, then
start_time ascending. -/
def postOrder (a b : SU) : Bool :=
  if a.medal_flag = b.medal_flag then a.start_time ≤ b.start_time
  else b.medal_flag < a.medal_flag

/-- Embedding of get_post_event_pending (lines 162-194): schedule units with
at least one result row, start_time within the trailing 24 hours of now
(timestamps in seconds), whose key is not excluded by a post_event
commentary row in the active-or-done status set, ordered medal events first
then chronologically. -/
def get_post_event_pending (sus : List SU) (results : List ResRow)
    (comm : List CommentaryRow) (now : Int) : List SU :=
  let excluded := (comm.filter (fun c =>
    c.ctype == "post_event" && postExclusionStatuses.contains c.status)).map
      (fun c => c.euc)
  (sus.filter (fun su =>
    results.any (fun r => r.euc == su.euc)
      && decide (now - 86400 ≤ su.start_time)
      && !(excluded.contains su.euc))).mergeSort postOrder

/-- Modelled from the spec: the claimed post-event selection predicate in
the spec wording — an event whose results became available within the
trailing 24-hour window and that has no post_event commentary record in the
status set {published, proofed, writing, analyzing}. Used only to compare
the claim against the code, which filters on the event start time
instead. -/
def specPostEligible (su : SU) (results : List ResRow)
    (comm : List CommentaryRow) (now : Int) : Prop :=
  (∃ r ∈ results, r.euc = su.euc ∧ now - 86400 ≤ r.detected_at ∧ r.detected_at ≤ now)
  ∧ ∀ c ∈ comm, c.euc = su.euc → c.ctype = "post_event" →
      c.status ∉ postExclusionStatuses

/-- Invariant of the scrape-loop state: total ceiling, url uniqueness,
accepted urls and domains recorded as seen, at most two articles per domain,
and no skip-listed domain. -/
def ScrapeInv (st : ScrapeState) : Prop :=
  st.articles.length ≤ MAX_TOTAL_ARTICLES
  ∧ (st.articles.map Article.url).Nodup
  ∧ (∀ a ∈ st.articles, a.url ∈ st.seen_urls)
  ∧ (∀ a ∈ st.articles, a.domain ∈ st.seen_domains)
  ∧ (∀ d, (st.articles.filter (fun a => a.domain = d)).length ≤ 2)
  ∧ (∀ a ∈ st.articles, a.domain ∉ SKIP_DOMAINS)

/-! ### Derived notions used by the resolver-query statements -/

/-- Country query of the resolver output: carries a NOC and is not the
USA-angle query. -/
def isCountryQuery (q : Query) : Bool := q.noc.isSome && q.qtype != "usa"

/-- NOCs found among the medal or winner tiers, in tier order, skipping
missing and empty entries exactly as the query loop does. -/
def tierNocs (m : MedalNocs) : List String :=
  ((tierList m).filterMap (fun t => t.2)).filter (fun n => n != "")

/-- Number of country queries for one NOC. -/
def countNocQueries (n : String) (qs : List Query) : Nat :=
  ((qs.filter isCountryQuery).filter (fun q => q.noc == some n)).length

/-- Number of USA-angle queries. -/
def usaQueryCount (qs : List Query) : Nat :=
  (qs.filter (fun q => q.qtype == "usa")).length

/-- Scenario event of the spec: gold JPN, silver JPN (tie), bronze USA. -/
def scenarioCtx : EventContext :=
  ⟨"Speed Skating", "Speed Skating 500m", "500m Final", 0, 1,
    [⟨"Taro", "JPN", some 1, some "34.9", some "ME_GOLD", none⟩,
     ⟨"Jiro", "JPN", some 1, some "34.9", some "ME_SILVER", none⟩,
     ⟨"Sam", "USA", some 3, some "35.2", some "ME_BRONZE", none⟩]⟩

/-- Country lookup for the scenario. -/
def scenarioCountryName : String → Option String :=
  fun n => if n = "JPN" then some "Japan"
    else if n = "USA" then some "United States" else none

/-- Line opening one source block of the consolidated document. -/
def isSourceHeaderLine (l : String) : Prop :=
  ∃ (i : Nat) (d : String), l = "=== SOURCE " ++ toString i ++ ": " ++ d ++ " ==="

/-! ### Concrete sample data for witnesses -/

/-- Sample resolver output used by concrete witnesses. -/
def sampleResolved : Resolved :=
  ⟨"EVT", "Curling Mixed Doubles", "February 10, 2026", "Curling", 1, [], []⟩

/-- Sample usage of a first generator stage. -/
def sampleUsage1 : Usage := ⟨100, 50, 7⟩

/-- Sample usage of a second generator stage. -/
def sampleUsage2 : Usage := ⟨40, 20, 5⟩

/-- Oracle that always fails. -/
def callNone : String → Option CallResult := fun _ => none

/-- Oracle whose fact-check output carries one issue and corrected text. -/
def callFcOk : String → Option CallResult := fun _ => some ⟨"I---C", sampleUsage1⟩

/-- Oracle whose prose output is fixed. -/
def callPeOk : String → Option CallResult := fun _ => some ⟨"polished", sampleUsage2⟩

/-- Sample event context with one gold result row. -/
def sampleCtx : EventContext :=
  ⟨"Speed Skating", "500m", "Final", 1000,
    1, [⟨"Kok", "NED", some 1, some "36.49", some "ME_GOLD", none⟩]⟩

/-- Sample writer output. -/
def sampleWriter : WriterResult := ⟨"raw draft", ⟨500, 300, "m", "v3", 60⟩⟩

/-- Post-event collaborators whose resolver and writer succeed, whose search
finds nothing and whose generator calls fail. -/
def samplePostOracles : PostOracles :=
  ⟨fun _ => some sampleCtx, fun _ => none, fun _ => "February 10, 2026",
    fun _ => [], fun _ => none, fun _ => some sampleWriter,
    fun c r m s => some (edit_commentary callNone callNone c r m s)⟩

/-- Upcoming event used by pre-event witnesses. -/
def sampleUpEvent : UpEvent :=
  ⟨"EVT2", "Biathlon", "Sprint", "Final", 1, 5000, "SCHEDULED"⟩

/-- Pre-event collaborators whose search finds nothing. -/
def samplePreOracles : PreOracles :=
  ⟨fun _ => [], fun _ => none, fun _ => "February 11, 2026",
    fun _ => some sampleWriter, fun _ _ => none⟩

end OlympicsTV

namespace OlympicsTV

/-! ## Theorems -/

/-! ### Helper lemmas for the separator parser -/

theorem leadsWith_iff (p s : List Char) : leadsWith p s = true ↔ ∃ t, s = p ++ t := by
  induction p generalizing s with
  | nil => simp [leadsWith]
  | cons a as ih =>
    cases s with
    | nil => simp [leadsWith]
    | cons b bs =>
      simp only [leadsWith, Bool.and_eq_true, decide_eq_true_eq, ih]
      constructor
      · rintro ⟨rfl, t, rfl⟩
        exact ⟨t, rfl⟩
      · rintro ⟨t, h⟩
        simp only [List.cons_append, List.cons.injEq] at h
        exact ⟨h.1.symm, t, h.2⟩

theorem splitFirst_eq_some (sep s a b : List Char)
    (h : splitFirst sep s = some (a, b)) : s = a ++ sep ++ b := by
  induction s generalizing a b with
  | nil => simp [splitFirst] at h
  | cons c rest ih =>
    by_cases hp : leadsWith sep (c :: rest) = true
    · rw [splitFirst, if_pos hp] at h
      obtain ⟨t, ht⟩ := (leadsWith_iff sep (c :: rest)).1 hp
      injection h with h
      injection h with h1 h2
      subst h1
      rw [ht, List.drop_left] at h2
      simp [ht, h2]
    · rw [splitFirst, if_neg hp] at h
      cases hrec : splitFirst sep rest with
      | none => rw [hrec] at h; exact absurd h (by simp)
      | some p =>
        obtain ⟨a0, b0⟩ := p
        rw [hrec] at h
        injection h with h
        injection h with h1 h2
        subst h2
        rw [← h1]
        simpa using ih a0 b0 hrec

theorem splitFirst_minimal (sep s a b : List Char)
    (h : splitFirst sep s = some (a, b)) :
    ∀ a1 b1, s = a1 ++ sep ++ b1 → a.length ≤ a1.length := by
  induction s generalizing a b with
  | nil => simp [splitFirst] at h
  | cons c rest ih =>
    intro a1 b1 hs
    by_cases hp : leadsWith sep (c :: rest) = true
    · rw [splitFirst, if_pos hp] at h
      injection h with h
      injection h with h1 _
      subst h1
      simp
    · rw [splitFirst, if_neg hp] at h
      cases hrec : splitFirst sep rest with
      | none => rw [hrec] at h; exact absurd h (by simp)
      | some p =>
        obtain ⟨a0, b0⟩ := p
        rw [hrec] at h
        injection h with h
        injection h with h1 h2
        cases a1 with
        | nil =>
          exfalso
          apply hp
          rw [leadsWith_iff]
          exact ⟨b1, by simpa using hs⟩
        | cons c1 a1t =>
          simp only [List.cons_append, List.cons.injEq] at hs
          have := ih a0 b0 hrec a1t b1 hs.2
          rw [← h1]
          simpa using this

theorem splitFirst_eq_none (sep s : List Char) (hsep : sep ≠ [])
    (h : splitFirst sep s = none) : ∀ a b, s ≠ a ++ sep ++ b := by
  induction s with
  | nil =>
    intro a b hs
    cases sep with
    | nil => exact hsep rfl
    | cons x xs => simp at hs
  | cons c rest ih =>
    intro a b hs
    by_cases hp : leadsWith sep (c :: rest) = true
    · rw [splitFirst, if_pos hp] at h
      exact absurd h (by simp)
    · rw [splitFirst, if_neg hp] at h
      cases hrec : splitFirst sep rest with
      | some p => rw [hrec] at h; exact absurd h (by cases p; simp)
      | none =>
        cases a with
        | nil =>
          apply hp
          rw [leadsWith_iff]
          exact ⟨b, by simpa using hs⟩
        | cons c1 a1t =>
          simp only [List.cons_append, List.cons.injEq] at hs
          exact ih hrec a1t b hs.2

/-! ### Claim C8: the verification-pass output parser -/

/-- C8: for every generator output, if the output decomposes around the
first occurrence of the separator as issues-part then corrected-part, the
parser returns exactly (stripped issues, stripped corrected text); when the
separator is absent the whole output is the corrected text with empty
issues. The parser is a total function, so parsing never fails. -/
theorem C8_factcheck_split (s a b : List Char) :
    (s = a ++ factCheckSep ++ b →
      (∀ a1 b1, s = a1 ++ factCheckSep ++ b1 → a.length ≤ a1.length) →
      parse_factcheck_output s = (trimChars a, trimChars b))
    ∧ ((∀ a1 b1, s ≠ a1 ++ factCheckSep ++ b1) →
      parse_factcheck_output s = ([], s)) := by
  constructor
  · intro hs hmin
    cases hsplit : splitFirst factCheckSep s with
    | none =>
      exact absurd hs
        (splitFirst_eq_none factCheckSep s (by simp [factCheckSep]) hsplit a b)
    | some p =>
      obtain ⟨a0, b0⟩ := p
      have h0 := splitFirst_eq_some factCheckSep s a0 b0 hsplit
      have hlen1 := splitFirst_minimal factCheckSep s a0 b0 hsplit a b hs
      have hlen2 := hmin a0 b0 h0
      have hlen : a0.length = a.length := Nat.le_antisymm hlen1 hlen2
      have hab : a0 = a ∧ factCheckSep ++ b0 = factCheckSep ++ b := by
        apply List.append_inj
        · rw [← List.append_assoc, ← List.append_assoc, ← h0, hs]
        · exact hlen
      have hb : b0 = b := by
        have := hab.2
        simpa using this
      rw [parse_factcheck_output, hsplit, hab.1, hb]
  · intro habsent
    cases hsplit : splitFirst factCheckSep s with
    | none => rw [parse_factcheck_output, hsplit]
    | some p =>
      obtain ⟨a0, b0⟩ := p
      exact absurd (splitFirst_eq_some factCheckSep s a0 b0 hsplit) (habsent a0 b0)

/-- Witness for C8 at a concrete output with the separator present, and at a
concrete output without the separator. -/
theorem C8_factcheck_split_witness :
    parse_factcheck_output ("ISSUES: None found ---ok text".toList)
        = (trimChars "ISSUES: None found ".toList, trimChars "ok text".toList)
    ∧ parse_factcheck_output "clean".toList = ([], "clean".toList) := by
  constructor
  · exact (C8_factcheck_split "ISSUES: None found ---ok text".toList
      "ISSUES: None found ".toList "ok text".toList).1 (by decide)
      (splitFirst_minimal factCheckSep "ISSUES: None found ---ok text".toList
        "ISSUES: None found ".toList "ok text".toList (by decide))
  · exact (C8_factcheck_split "clean".toList "".toList "".toList).2
      (splitFirst_eq_none factCheckSep "clean".toList (by decide) (by decide))

/-! ### Claim C2: the editor fallback ladder -/

/-- C2: the fallback ladder of edit_commentary. When the verification call
fails, the editor returns the original draft with the verifier-failed note
and zero cost. When it succeeds and the prose call fails, the editor returns
the verification-stage corrected text with the verification issues and only
the verification-stage usage and cost. When both succeed, it returns the
prose output with the verification issues and cost equal to the sum of both
stage costs. -/
theorem C2_editor_fallback_ladder (callFc callPe : String → Option CallResult)
    (commentary : String) (resolved : Resolved) (ms : List SourceMeta)
    (cons : String) :
    (callFc (factCheckPrompt commentary resolved ms cons) = none →
      edit_commentary callFc callPe commentary resolved ms cons =
        ⟨commentary, "Fact-checker failed", EditUsage.empty, 0⟩)
    ∧ (∀ r, callFc (factCheckPrompt commentary resolved ms cons) = some r →
        (callPe (prosePrompt (parse_factcheck_output r.content.toList).2.asString) = none →
          edit_commentary callFc callPe commentary resolved ms cons =
            ⟨(parse_factcheck_output r.content.toList).2.asString,
              (parse_factcheck_output r.content.toList).1.asString,
              EditUsage.single r.usage, r.usage.estimated_cost⟩)
        ∧ ∀ r2, callPe (prosePrompt (parse_factcheck_output r.content.toList).2.asString) = some r2 →
            edit_commentary callFc callPe commentary resolved ms cons =
              ⟨r2.content, (parse_factcheck_output r.content.toList).1.asString,
                EditUsage.combined r.usage r2.usage,
                r.usage.estimated_cost + r2.usage.estimated_cost⟩) := by
  refine ⟨fun hfc => ?_, fun r hfc => ⟨fun hpe => ?_, fun r2 hpe => ?_⟩⟩
  · simp [edit_commentary, fact_check, hfc]
  · simp only [String.toList] at hpe
    simp [edit_commentary, fact_check, prose_edit, hfc, hpe]
  · simp only [String.toList] at hpe
    simp [edit_commentary, fact_check, prose_edit, hfc, hpe]

/-- Witness for C2 on each of the three rungs of the ladder: verifier
failure, prose failure after verification, and double success. -/
theorem C2_editor_fallback_ladder_witness :
    edit_commentary callNone callPeOk "draft" sampleResolved [] "" =
      ⟨"draft", "Fact-checker failed", EditUsage.empty, 0⟩
    ∧ edit_commentary callFcOk callNone "draft" sampleResolved [] "" =
      ⟨"C", "I", EditUsage.single sampleUsage1, 7⟩
    ∧ edit_commentary callFcOk callPeOk "draft" sampleResolved [] "" =
      ⟨"polished", "I", EditUsage.combined sampleUsage1 sampleUsage2, 12⟩ := by
  refine ⟨?_, ?_, ?_⟩
  · exact (C2_editor_fallback_ladder callNone callPeOk "draft" sampleResolved [] "").1 rfl
  · exact ((C2_editor_fallback_ladder callFcOk callNone "draft" sampleResolved [] "").2
      ⟨"I---C", sampleUsage1⟩ rfl).1 rfl
  · exact ((C2_editor_fallback_ladder callFcOk callPeOk "draft" sampleResolved [] "").2
      ⟨"I---C", sampleUsage1⟩ rfl).2 ⟨"polished", sampleUsage2⟩ rfl

/-! ### Commentary-store lemmas -/

theorem keyCount_map (e t : String) (db : List CommentaryRow)
    (f : CommentaryRow → CommentaryRow)
    (hf : ∀ c, (f c).euc = c.euc ∧ (f c).ctype = c.ctype) :
    keyCount e t (db.map f) = keyCount e t db := by
  unfold keyCount
  rw [List.filter_map, List.length_map]
  congr 1
  apply List.filter_congr
  intro c _
  simp [Function.comp, (hf c).1, (hf c).2]

theorem keyCount_pos_iff_any (e t : String) (db : List CommentaryRow) :
    db.any (fun c => c.euc == e && c.ctype == t) = true ↔ keyCount e t db ≠ 0 := by
  unfold keyCount
  rw [List.any_eq_true, Ne, List.length_eq_zero, List.filter_eq_nil_iff]
  push_neg
  simp

theorem keyCount_update_target (euc st : String) (err : Option String)
    (ct : String) (db : List CommentaryRow) :
    keyCount euc ct (update_commentary_status euc st err ct db)
      = if keyCount euc ct db = 0 then 1 else keyCount euc ct db := by
  unfold update_commentary_status
  by_cases h : db.any (fun c => c.euc == euc && c.ctype == ct) = true
  · rw [if_pos h]
    have hpos := (keyCount_pos_iff_any euc ct db).1 h
    rw [if_neg hpos]
    apply keyCount_map
    intro c
    split_ifs <;> simp
  · rw [if_neg h]
    have hz : keyCount euc ct db = 0 := by
      by_contra hc
      exact h ((keyCount_pos_iff_any euc ct db).2 hc)
    rw [if_pos hz]
    unfold keyCount at hz ⊢
    rw [List.filter_append, List.length_append, hz]
    simp [freshRow]

theorem keyCount_update_other (euc st : String) (err : Option String)
    (ct e t : String) (db : List CommentaryRow) (h : ¬(e = euc ∧ t = ct)) :
    keyCount e t (update_commentary_status euc st err ct db) = keyCount e t db := by
  unfold update_commentary_status
  split
  · apply keyCount_map
    intro c
    split_ifs <;> simp
  · unfold keyCount
    rw [List.filter_append, List.length_append]
    have : ((freshRow euc ct st).euc == e && (freshRow euc ct st).ctype == t) = false := by
      simp only [freshRow, Bool.and_eq_false_iff, beq_eq_false_iff_ne]
      by_cases h1 : euc = e
      · right
        intro h2
        exact h ⟨h1.symm, h2.symm⟩
      · left
        exact h1
    simp [this]

theorem keyCount_save (e t euc content proofed : String)
    (sm : List SourceMeta) (raw : String) (wu : WriterUsage)
    (er : Option EditResult) (db : List CommentaryRow) :
    keyCount e t (save_commentary euc content proofed sm raw wu er db)
      = keyCount e t db := by
  apply keyCount_map
  intro c
  split_ifs <;> simp

theorem keyCount_save_intro (e t euc content proofed : String)
    (sm : List SourceMeta) (raw : String) (wu : WriterUsage)
    (er : Option EditResult) (db : List CommentaryRow) :
    keyCount e t (save_intro euc content proofed sm raw wu er db)
      = keyCount e t db := by
  apply keyCount_map
  intro c
  split_ifs <;> simp

theorem exists_key_update (euc st : String) (err : Option String)
    (ct : String) (db : List CommentaryRow) :
    ∃ c ∈ update_commentary_status euc st err ct db,
      c.euc = euc ∧ c.ctype = ct := by
  unfold update_commentary_status
  by_cases h : db.any (fun c => c.euc == euc && c.ctype == ct) = true
  · rw [if_pos h]
    obtain ⟨c0, hc0, hp⟩ := List.any_eq_true.1 h
    simp only [Bool.and_eq_true, beq_iff_eq] at hp
    refine ⟨_, List.mem_map_of_mem _ hc0, ?_⟩
    have : (c0.euc == euc && c0.ctype == ct) = true := by
      simp [hp.1, hp.2]
    rw [if_pos this]
    split_ifs <;> simp [hp.1, hp.2]
  · rw [if_neg h]
    exact ⟨freshRow euc ct st, by simp, by simp [freshRow]⟩

theorem exists_key_map (e t : String) (db : List CommentaryRow)
    (f : CommentaryRow → CommentaryRow)
    (hf : ∀ c, (f c).euc = c.euc ∧ (f c).ctype = c.ctype)
    (h : ∃ c ∈ db, c.euc = e ∧ c.ctype = t) :
    ∃ c ∈ db.map f, c.euc = e ∧ c.ctype = t := by
  obtain ⟨c0, hc0, h1, h2⟩ := h
  exact ⟨f c0, List.mem_map_of_mem f hc0, by rw [(hf c0).1, h1], by rw [(hf c0).2, h2]⟩

theorem update_fields_of_existing (euc st : String) (err : Option String)
    (ct : String) (db : List CommentaryRow)
    (hex : db.any (fun c => c.euc == euc && c.ctype == ct) = true)
    (herr : (err.getD "") ≠ "") :
    ∀ c ∈ update_commentary_status euc st err ct db,
      c.euc = euc → c.ctype = ct → c.status = st ∧ c.error_message = err := by
  unfold update_commentary_status
  rw [if_pos hex]
  intro c hc h1 h2
  obtain ⟨c0, hc0, rfl⟩ := List.mem_map.1 hc
  by_cases hcond : (c0.euc == euc && c0.ctype == ct) = true
  · rw [if_pos hcond, if_pos herr]
    constructor <;> rfl
  · rw [if_neg hcond] at h1 h2 ⊢
    exact absurd (by simp [h1, h2]) hcond

theorem save_commentary_fields (euc content proofed : String)
    (sm : List SourceMeta) (raw : String) (wu : WriterUsage)
    (er : Option EditResult) (db : List CommentaryRow) :
    ∀ c ∈ save_commentary euc content proofed sm raw wu er db,
      c.euc = euc → c.ctype = "post_event" →
      c.content = some content ∧ c.proofed_content = some proofed
        ∧ c.status = "proofed"
        ∧ c.corrections = some (match er with
            | some e => e.corrections
            | none => "") := by
  unfold save_commentary
  intro c hc h1 h2
  obtain ⟨c0, hc0, rfl⟩ := List.mem_map.1 hc
  by_cases hcond : (c0.euc == euc && c0.ctype == "post_event") = true
  · rw [if_pos hcond]
    exact ⟨rfl, rfl, rfl, rfl⟩
  · rw [if_neg hcond] at h1 h2 ⊢
    exact absurd (by simp [h1, h2]) hcond

theorem save_intro_fields (euc content proofed : String)
    (sm : List SourceMeta) (raw : String) (wu : WriterUsage)
    (er : Option EditResult) (db : List CommentaryRow) :
    ∀ c ∈ save_intro euc content proofed sm raw wu er db,
      c.euc = euc → c.ctype = "pre_event" →
      c.content = some content ∧ c.proofed_content = some proofed
        ∧ c.status = "proofed"
        ∧ c.corrections = some (match er with
            | some e => e.corrections
            | none => "") := by
  unfold save_intro
  intro c hc h1 h2
  obtain ⟨c0, hc0, rfl⟩ := List.mem_map.1 hc
  by_cases hcond : (c0.euc == euc && c0.ctype == "pre_event") = true
  · rw [if_pos hcond]
    exact ⟨rfl, rfl, rfl, rfl⟩
  · rw [if_neg hcond] at h1 h2 ⊢
    exact absurd (by simp [h1, h2]) hcond

theorem keyCount_process_event_target (o : PostOracles) (euc : String)
    (db : List CommentaryRow) (h : keyCount euc "post_event" db ≤ 1) :
    keyCount euc "post_event" ((process_event o euc db).db) = 1 := by
  unfold process_event
  split
  · rw [keyCount_update_target]
    split_ifs <;> omega
  · dsimp only
    split
    · rw [keyCount_update_target, keyCount_update_target, keyCount_update_target]
      split_ifs <;> omega
    · split
      · rw [keyCount_save, keyCount_update_target, keyCount_update_target]
        split_ifs <;> omega
      · rw [keyCount_save, keyCount_update_target, keyCount_update_target]
        split_ifs <;> omega

theorem keyCount_process_event_other (o : PostOracles) (euc : String)
    (db : List CommentaryRow) (e t : String) (h : ¬(e = euc ∧ t = "post_event")) :
    keyCount e t ((process_event o euc db).db) = keyCount e t db := by
  unfold process_event
  split
  · simp [keyCount_update_other _ _ _ _ _ _ _ h]
  · dsimp only
    split
    · simp [keyCount_update_other _ _ _ _ _ _ _ h]
    · split
      · simp [keyCount_save, keyCount_update_other _ _ _ _ _ _ _ h]
      · simp [keyCount_save, keyCount_update_other _ _ _ _ _ _ _ h]

theorem keyCount_intro_process_target (o : PreOracles) (ev : UpEvent)
    (db : List CommentaryRow) (h : keyCount ev.euc "pre_event" db ≤ 1) :
    keyCount ev.euc "pre_event" ((intro_process_event o ev db).db) = 1 := by
  unfold intro_process_event update_status
  dsimp only
  split
  · rw [keyCount_update_target, keyCount_update_target]
    split_ifs <;> omega
  · split
    · rw [keyCount_update_target, keyCount_update_target, keyCount_update_target]
      split_ifs <;> omega
    · split
      · rw [keyCount_save_intro, keyCount_update_target, keyCount_update_target]
        split_ifs <;> omega
      · rw [keyCount_save_intro, keyCount_update_target, keyCount_update_target]
        split_ifs <;> omega

theorem keyCount_intro_process_other (o : PreOracles) (ev : UpEvent)
    (db : List CommentaryRow) (e t : String) (h : ¬(e = ev.euc ∧ t = "pre_event")) :
    keyCount e t ((intro_process_event o ev db).db) = keyCount e t db := by
  unfold intro_process_event update_status
  dsimp only
  split
  · simp [keyCount_update_other _ _ _ _ _ _ _ h]
  · split
    · simp [keyCount_update_other _ _ _ _ _ _ _ h]
    · split
      · simp [keyCount_save_intro, keyCount_update_other _ _ _ _ _ _ _ h]
      · simp [keyCount_save_intro, keyCount_update_other _ _ _ _ _ _ _ h]

theorem keyCount_execRun_target (r : RunSpec) (db : List CommentaryRow)
    (h : keyCount (runKey r).1 (runKey r).2 db ≤ 1) :
    keyCount (runKey r).1 (runKey r).2 (execRun r db) = 1 := by
  cases r with
  | post o euc => exact keyCount_process_event_target o euc db h
  | pre o ev => exact keyCount_intro_process_target o ev db h

theorem keyCount_execRun_other (r : RunSpec) (db : List CommentaryRow)
    (e t : String) (h : ¬((e, t) = runKey r)) :
    keyCount e t (execRun r db) = keyCount e t db := by
  cases r with
  | post o euc =>
    apply keyCount_process_event_other
    intro ⟨h1, h2⟩
    exact h (by simp [runKey, h1, h2])
  | pre o ev =>
    apply keyCount_intro_process_other
    intro ⟨h1, h2⟩
    exact h (by simp [runKey, h1, h2])

theorem keyCount_execRuns_preserve_one (rs : List RunSpec)
    (db : List CommentaryRow) (e t : String)
    (h1 : keyCount e t db = 1) : keyCount e t (execRuns rs db) = 1 := by
  induction rs generalizing db with
  | nil => exact h1
  | cons r rest ih =>
    apply ih
    by_cases h : (e, t) = runKey r
    · have := keyCount_execRun_target r db (by rw [← h]; exact h1.le)
      rw [← h] at this
      exact this
    · rw [keyCount_execRun_other r db e t h, h1]

theorem atMostOne_execRun (r : RunSpec) (db : List CommentaryRow)
    (h : atMostOnePerKey db) : atMostOnePerKey (execRun r db) := by
  intro e t
  by_cases hk : (e, t) = runKey r
  · have := keyCount_execRun_target r db (by rw [← hk]; exact h e t)
    rw [← hk] at this
    exact this.le
  · rw [keyCount_execRun_other r db e t hk]
    exact h e t

theorem atMostOne_execRuns (rs : List RunSpec) (db : List CommentaryRow)
    (h : atMostOnePerKey db) : atMostOnePerKey (execRuns rs db) := by
  induction rs generalizing db with
  | nil => exact h
  | cons r rest ih => exact ih _ (atMostOne_execRun r db h)

/-! ### Claim C1: idempotent upsert of commentary records -/

/-- C1: the status-update operation updates an existing (event,
commentary_type) row in place, leaving the row count unchanged, and inserts
exactly one fresh row only when no row exists; consequently, starting from a
store with at most one row per key, any sequence of orchestrator runs (post-
or pre-event, repeated keys included, whatever the statuses already stored)
keeps at most one row per key, and after the sequence every key touched by a
run holds exactly one row. -/
theorem C1_upsert_unique (runs : List RunSpec) (db : List CommentaryRow)
    (hinv : atMostOnePerKey db) :
    (∀ euc st err ct db0, (∃ c ∈ db0, c.euc = euc ∧ c.ctype = ct) →
        (update_commentary_status euc st err ct db0).length = db0.length)
    ∧ (∀ euc st err ct db0, (∀ c ∈ db0, ¬(c.euc = euc ∧ c.ctype = ct)) →
        update_commentary_status euc st err ct db0 = db0 ++ [freshRow euc ct st])
    ∧ atMostOnePerKey (execRuns runs db)
    ∧ ∀ r ∈ runs, keyCount (runKey r).1 (runKey r).2 (execRuns runs db) = 1 := by
  refine ⟨?_, ?_, atMostOne_execRuns runs db hinv, ?_⟩
  · intro euc st err ct db0 ⟨c0, hc0, h1, h2⟩
    unfold update_commentary_status
    rw [if_pos (List.any_eq_true.2 ⟨c0, hc0, by simp [h1, h2]⟩)]
    exact List.length_map _ _
  · intro euc st err ct db0 hnone
    unfold update_commentary_status
    have hany : db0.any (fun c => c.euc == euc && c.ctype == ct) = false := by
      rw [List.any_eq_false]
      intro c hc
      simp only [Bool.and_eq_true, beq_iff_eq, not_and]
      intro h1 h2
      exact hnone c hc ⟨h1, h2⟩
    simp [hany]
  · induction runs generalizing db with
    | nil => intro r hr; exact absurd hr (List.not_mem_nil r)
    | cons r rest ih =>
      intro r1 hr1
      rcases List.mem_cons.1 hr1 with rfl | hmem
      · rw [execRuns]
        apply keyCount_execRuns_preserve_one
        exact keyCount_execRun_target r1 db (hinv _ _)
      · rw [execRuns]
        exact ih (execRun r db) (atMostOne_execRun r db hinv) r1 hmem

/-- Witness for C1: three runs in sequence, the post-event key processed
twice, starting from an empty store. -/
theorem C1_upsert_unique_witness :
    let runs := [RunSpec.post samplePostOracles "E1",
      RunSpec.pre samplePreOracles sampleUpEvent,
      RunSpec.post samplePostOracles "E1"]
    (∀ euc st err ct db0, (∃ c ∈ db0, c.euc = euc ∧ c.ctype = ct) →
        (update_commentary_status euc st err ct db0).length = db0.length)
    ∧ (∀ euc st err ct db0, (∀ c ∈ db0, ¬(c.euc = euc ∧ c.ctype = ct)) →
        update_commentary_status euc st err ct db0 = db0 ++ [freshRow euc ct st])
    ∧ atMostOnePerKey (execRuns runs [])
    ∧ ∀ r ∈ runs, keyCount (runKey r).1 (runKey r).2 (execRuns runs []) = 1 :=
  C1_upsert_unique _ [] (fun e t => by simp [keyCount])

/-! ### Claim C5: zero scraped articles — fatal for previews only -/

/-- C5: pre-event processing with zero scraped articles marks the record
failed with the no-preview-sources reason (which contains the text
"no preview sources" up to case) and never calls the writer or the editor;
post-event processing with zero scraped articles is not a failure and
proceeds to the writer with the results-only consolidated document. -/
theorem C5_zero_articles (o : PreOracles) (ev : UpEvent)
    (db : List CommentaryRow) (o2 : PostOracles) (euc : String)
    (db2 : List CommentaryRow) (ctx : EventContext) :
    (scrape_for_event o.search o.fetch (build_preview_queries ev).queries = [] →
      (intro_process_event o ev db).ok = false
      ∧ (intro_process_event o ev db).writerCalledWith = none
      ∧ (intro_process_event o ev db).editorCalledWith = none
      ∧ (∃ c ∈ (intro_process_event o ev db).db, c.euc = ev.euc ∧ c.ctype = "pre_event")
      ∧ (∀ c ∈ (intro_process_event o ev db).db, c.euc = ev.euc → c.ctype = "pre_event" →
          c.status = "failed" ∧ c.error_message = some "No preview sources found")
      ∧ strContainsSub (pyLower "No preview sources found") "no preview sources" = true)
    ∧ (o2.getContext euc = some ctx →
      scrape_for_event o2.search o2.fetch (resolve_queries ctx o2.countryName) = [] →
      (process_event o2 euc db2).writerCalledWith = some (build_consolidated_file
        ⟨euc, build_event_label ctx.discipline ctx.event, o2.dateFmt ctx.start_time,
          ctx.discipline, ctx.medal_flag, ctx.results,
          resolve_queries ctx o2.countryName⟩ [])) := by
  constructor
  · intro hs
    have hout : intro_process_event o ev db =
        ⟨update_status ev.euc "failed" (some "No preview sources found")
          (update_status ev.euc "scraping" none db), false, none, none, false⟩ := by
      unfold intro_process_event
      dsimp only
      rw [if_pos hs]
    rw [hout]
    refine ⟨rfl, rfl, rfl, ?_, ?_, by decide⟩
    · exact exists_key_update _ _ _ _ _
    · intro c hc h1 h2
      have hex : (update_status ev.euc "scraping" none db).any
          (fun c => c.euc == ev.euc && c.ctype == "pre_event") = true := by
        obtain ⟨c0, hc0, hk1, hk2⟩ := exists_key_update ev.euc "scraping" none "pre_event" db
        exact List.any_eq_true.2 ⟨c0, hc0, by simp [hk1, hk2]⟩
      exact update_fields_of_existing ev.euc "failed"
        (some "No preview sources found") "pre_event" _ hex (by simp) c hc h1 h2
  · intro hctx hs
    have hres : resolve_sources o2.getContext o2.countryName o2.dateFmt euc =
        some ⟨euc, build_event_label ctx.discipline ctx.event,
          o2.dateFmt ctx.start_time, ctx.discipline, ctx.medal_flag, ctx.results,
          resolve_queries ctx o2.countryName⟩ := by
      unfold resolve_sources
      rw [hctx]
    simp only [process_event, hres]
    simp only [hs]
    split
    · rfl
    · split <;> rfl

/-- Witness for C5: concrete pre- and post-event runs whose search oracle
returns no results at all, so both sides scrape zero articles. -/
theorem C5_zero_articles_witness :
    ((intro_process_event samplePreOracles sampleUpEvent []).ok = false
      ∧ (intro_process_event samplePreOracles sampleUpEvent []).writerCalledWith = none
      ∧ (intro_process_event samplePreOracles sampleUpEvent []).editorCalledWith = none
      ∧ (∃ c ∈ (intro_process_event samplePreOracles sampleUpEvent []).db,
          c.euc = sampleUpEvent.euc ∧ c.ctype = "pre_event")
      ∧ (∀ c ∈ (intro_process_event samplePreOracles sampleUpEvent []).db,
          c.euc = sampleUpEvent.euc → c.ctype = "pre_event" →
          c.status = "failed" ∧ c.error_message = some "No preview sources found")
      ∧ strContainsSub (pyLower "No preview sources found") "no preview sources" = true)
    ∧ (process_event samplePostOracles "E1" []).writerCalledWith =
        some (build_consolidated_file
          ⟨"E1", build_event_label sampleCtx.discipline sampleCtx.event,
            samplePostOracles.dateFmt sampleCtx.start_time, sampleCtx.discipline,
            sampleCtx.medal_flag, sampleCtx.results,
            resolve_queries sampleCtx samplePostOracles.countryName⟩ []) :=
  ⟨(C5_zero_articles samplePreOracles sampleUpEvent [] samplePostOracles "E1" []
      sampleCtx).1 rfl,
    (C5_zero_articles samplePreOracles sampleUpEvent [] samplePostOracles "E1" []
      sampleCtx).2 rfl rfl⟩

/-! ### Claim C6: verifier failure persists the raw draft as proofed -/

/-- C6: when the resolver and the writer succeed and every verification call
fails, the editor falls back to the raw draft, and the persisted record has
content and proofed_content both equal to the raw draft, the corrections
note Fact-checker failed, and status proofed. -/
theorem C6_verifier_failure_persists_draft (o : PostOracles)
    (callFc callPe : String → Option CallResult) (euc : String)
    (db : List CommentaryRow) (ctx : EventContext) (wr : WriterResult)
    (hctx : o.getContext euc = some ctx)
    (hw : ∀ s, o.write s = some wr)
    (hfc : ∀ p, callFc p = none)
    (hedit : o.edit = fun c r m s => some (edit_commentary callFc callPe c r m s)) :
    (∃ c ∈ (process_event o euc db).db, c.euc = euc ∧ c.ctype = "post_event")
    ∧ ∀ c ∈ (process_event o euc db).db, c.euc = euc → c.ctype = "post_event" →
        c.content = some wr.content ∧ c.proofed_content = some wr.content
        ∧ c.corrections = some "Fact-checker failed"
        ∧ c.status = "proofed" := by
  have hres : resolve_sources o.getContext o.countryName o.dateFmt euc =
      some ⟨euc, build_event_label ctx.discipline ctx.event,
        o.dateFmt ctx.start_time, ctx.discipline, ctx.medal_flag, ctx.results,
        resolve_queries ctx o.countryName⟩ := by
    unfold resolve_sources
    rw [hctx]
  have heditval : ∀ c r m s, edit_commentary callFc callPe c r m s =
      ⟨c, "Fact-checker failed", EditUsage.empty, 0⟩ := by
    intro c r m s
    simp [edit_commentary, fact_check, hfc]
  simp only [process_event, hres, hw, hedit, heditval]
  constructor
  · apply exists_key_map
    · intro c
      split_ifs <;> simp
    · obtain ⟨c0, hc0, hk⟩ := exists_key_update euc "writing" none "post_event"
        (update_commentary_status euc "scraping" none "post_event" db)
      exact ⟨c0, hc0, hk⟩
  · intro c hc h1 h2
    have := save_commentary_fields euc wr.content wr.content _ _ wr.usage
      (some ⟨wr.content, "Fact-checker failed", EditUsage.empty, 0⟩) _ c hc h1 h2
    exact ⟨this.1, this.2.1, this.2.2.2, this.2.2.1⟩

/-- Witness for C6 with the sample collaborators: writer succeeds, every
generator call of the editor fails. -/
theorem C6_verifier_failure_persists_draft_witness :
    (∃ c ∈ (process_event samplePostOracles "E1" []).db,
      c.euc = "E1" ∧ c.ctype = "post_event")
    ∧ ∀ c ∈ (process_event samplePostOracles "E1" []).db,
        c.euc = "E1" → c.ctype = "post_event" →
        c.content = some sampleWriter.content
        ∧ c.proofed_content = some sampleWriter.content
        ∧ c.corrections = some "Fact-checker failed"
        ∧ c.status = "proofed" :=
  C6_verifier_failure_persists_draft samplePostOracles callNone callNone "E1" []
    sampleCtx sampleWriter rfl (fun _ => rfl) (fun _ => rfl) rfl

/-! ### Claim C10: the editor entry point never returns nothing -/

/-- C10: edit_commentary is total and falls back to the original draft when
every generator call fails, so with the orchestrator wired to the editor the
editor-returned-nothing branch (which would save an unproofed draft) never
runs, and every successfully completed post-event record receives its
proofed_content and corrections from an editor result. -/
theorem C10_editor_always_returns (callFc callPe : String → Option CallResult)
    (o : PostOracles) (euc : String) (db : List CommentaryRow)
    (ctx : EventContext) (wr : WriterResult)
    (hedit : o.edit = fun c r m s => some (edit_commentary callFc callPe c r m s)) :
    (∀ c r m s cFc cPe, (∀ p, cFc p = none) →
      edit_commentary cFc cPe c r m s = ⟨c, "Fact-checker failed", EditUsage.empty, 0⟩)
    ∧ (process_event o euc db).usedEditorFallbackSave = false
    ∧ (o.getContext euc = some ctx → (∀ s, o.write s = some wr) →
        (process_event o euc db).ok = true
        ∧ ∃ draft resolved sm cons,
          (process_event o euc db).writerCalledWith = some cons
          ∧ (process_event o euc db).editorCalledWith = some draft
          ∧ ∀ c ∈ (process_event o euc db).db, c.euc = euc → c.ctype = "post_event" →
              c.proofed_content =
                some (edit_commentary callFc callPe draft resolved sm cons).proofed_content
              ∧ c.corrections =
                some (edit_commentary callFc callPe draft resolved sm cons).corrections) := by
  refine ⟨fun c r m s cFc cPe hfc => by simp [edit_commentary, fact_check, hfc], ?_, ?_⟩
  · unfold process_event
    split
    · rfl
    · dsimp only
      rw [hedit]
      split
      · rfl
      · rfl
  · intro hctx hw
    have hres : resolve_sources o.getContext o.countryName o.dateFmt euc =
        some ⟨euc, build_event_label ctx.discipline ctx.event,
          o.dateFmt ctx.start_time, ctx.discipline, ctx.medal_flag, ctx.results,
          resolve_queries ctx o.countryName⟩ := by
      unfold resolve_sources
      rw [hctx]
    simp only [process_event, hres, hw, hedit]
    refine ⟨trivial, wr.content,
      ⟨euc, build_event_label ctx.discipline ctx.event, o.dateFmt ctx.start_time,
        ctx.discipline, ctx.medal_flag, ctx.results, resolve_queries ctx o.countryName⟩,
      (scrape_for_event o.search o.fetch (resolve_queries ctx o.countryName)).map
        (fun a => SourceMeta.mk a.url a.domain a.title a.query_type),
      build_consolidated_file
        ⟨euc, build_event_label ctx.discipline ctx.event, o.dateFmt ctx.start_time,
          ctx.discipline, ctx.medal_flag, ctx.results, resolve_queries ctx o.countryName⟩
        (scrape_for_event o.search o.fetch (resolve_queries ctx o.countryName)),
      rfl, rfl, ?_⟩
    intro c hc h1 h2
    have := save_commentary_fields euc wr.content _ _ _ wr.usage _ _ c hc h1 h2
    exact ⟨this.2.1, this.2.2.2⟩

/-- Witness for C10 with the sample collaborators, whose run succeeds. -/
theorem C10_editor_always_returns_witness :
    (∀ c r m s cFc cPe, (∀ p, cFc p = none) →
      edit_commentary cFc cPe c r m s = ⟨c, "Fact-checker failed", EditUsage.empty, 0⟩)
    ∧ (process_event samplePostOracles "E1" []).usedEditorFallbackSave = false
    ∧ ((process_event samplePostOracles "E1" []).ok = true
        ∧ ∃ draft resolved sm cons,
          (process_event samplePostOracles "E1" []).writerCalledWith = some cons
          ∧ (process_event samplePostOracles "E1" []).editorCalledWith = some draft
          ∧ ∀ c ∈ (process_event samplePostOracles "E1" []).db,
              c.euc = "E1" → c.ctype = "post_event" →
              c.proofed_content =
                some (edit_commentary callNone callNone draft resolved sm cons).proofed_content
              ∧ c.corrections =
                some (edit_commentary callNone callNone draft resolved sm cons).corrections) :=
  ⟨(C10_editor_always_returns callNone callNone samplePostOracles "E1" [] sampleCtx
      sampleWriter rfl).1,
    (C10_editor_always_returns callNone callNone samplePostOracles "E1" [] sampleCtx
      sampleWriter rfl).2.1,
    (C10_editor_always_returns callNone callNone samplePostOracles "E1" [] sampleCtx
      sampleWriter rfl).2.2 rfl (fun _ => rfl)⟩

/-! ### Claim C3: the resolver query set -/

theorem appendCountry_ne_usa (s : String) : (s ++ "_country") ≠ "usa" := by
  intro h
  have hlen := congrArg String.length h
  rw [String.length_append] at hlen
  have h8 : ("_country" : String).length = 8 := rfl
  have h3 : ("usa" : String).length = 3 := rfl
  rw [h8, h3] at hlen
  omega

theorem countNocQueries_append (n : String) (qs1 qs2 : List Query) :
    countNocQueries n (qs1 ++ qs2) = countNocQueries n qs1 + countNocQueries n qs2 := by
  unfold countNocQueries
  rw [List.filter_append, List.filter_append, List.length_append]

theorem usaQueryCount_append (qs1 qs2 : List Query) :
    usaQueryCount (qs1 ++ qs2) = usaQueryCount qs1 + usaQueryCount qs2 := by
  unfold usaQueryCount
  rw [List.filter_append, List.length_append]

theorem filtered_nocs_cons_none (tier : String) (rest : List (String × Option String)) :
    ((((tier, (none : Option String)) :: rest).filterMap (fun t => t.2)).filter
        (fun x => x != ""))
      = ((rest.filterMap (fun t => t.2)).filter (fun x => x != "")) := by
  simp [List.filterMap_cons]

theorem filtered_nocs_cons_some (tier noc : String)
    (rest : List (String × Option String)) (hne : noc ≠ "") :
    ((((tier, some noc) :: rest).filterMap (fun t => t.2)).filter (fun x => x != ""))
      = noc :: ((rest.filterMap (fun t => t.2)).filter (fun x => x != "")) := by
  simp [List.filterMap_cons, List.filter_cons, bne_iff_ne.2 hne]

theorem filtered_nocs_cons_empty (tier : String)
    (rest : List (String × Option String)) :
    ((((tier, some "") :: rest).filterMap (fun t => t.2)).filter (fun x => x != ""))
      = ((rest.filterMap (fun t => t.2)).filter (fun x => x != "")) := by
  simp [List.filterMap_cons, List.filter_cons]

theorem tierFold_invariant (cn : String → Option String) (label : String)
    (ts : List (String × Option String)) :
    ∀ (st : Bool × List String × List Query),
    st.2.1.Nodup →
    (∀ n, countNocQueries n st.2.2 = if n ∈ st.2.1 then 1 else 0) →
    (st.1 = decide ("USA" ∈ st.2.1)) →
    (∀ q ∈ st.2.2, q.qtype ≠ "usa") →
    (∀ n ∈ st.2.1, n ≠ "") →
    ((ts.foldl (tierFoldStep cn label) st).2.1.Nodup
    ∧ (∀ n, countNocQueries n (ts.foldl (tierFoldStep cn label) st).2.2
        = if n ∈ (ts.foldl (tierFoldStep cn label) st).2.1 then 1 else 0)
    ∧ ((ts.foldl (tierFoldStep cn label) st).1
        = decide ("USA" ∈ (ts.foldl (tierFoldStep cn label) st).2.1))
    ∧ (∀ q ∈ (ts.foldl (tierFoldStep cn label) st).2.2, q.qtype ≠ "usa")
    ∧ (∀ n ∈ (ts.foldl (tierFoldStep cn label) st).2.1, n ≠ "")
    ∧ (∀ n, n ∈ (ts.foldl (tierFoldStep cn label) st).2.1 ↔
        n ∈ st.2.1 ∨ n ∈ (ts.filterMap (fun t => t.2)).filter (fun x => x != ""))) := by
  induction ts with
  | nil =>
    intro st h1 h2 h3 h4 h5
    exact ⟨h1, h2, h3, h4, h5, fun n => by simp⟩
  | cons t rest ih =>
    intro st h1 h2 h3 h4 h5
    rcases t with ⟨tier, noc?⟩
    rcases noc? with _ | noc
    · rw [List.foldl_cons]
      have hstep : tierFoldStep cn label st (tier, none) = st := rfl
      rw [hstep]
      obtain ⟨g1, g2, g3, g4, g5, g6⟩ := ih st h1 h2 h3 h4 h5
      refine ⟨g1, g2, g3, g4, g5, fun n => ?_⟩
      rw [g6 n, filtered_nocs_cons_none]
    · rw [List.foldl_cons]
      by_cases hskip : noc = "" ∨ noc ∈ st.2.1
      · have hstep : tierFoldStep cn label st (tier, some noc) = st := by
          unfold tierFoldStep
          simp only
          rw [if_pos hskip]
        rw [hstep]
        obtain ⟨g1, g2, g3, g4, g5, g6⟩ := ih st h1 h2 h3 h4 h5
        refine ⟨g1, g2, g3, g4, g5, fun n => ?_⟩
        rw [g6 n]
        rcases hskip with hempty | hmem
        · subst hempty
          rw [filtered_nocs_cons_empty]
        · by_cases hns : noc = ""
          · subst hns
            rw [filtered_nocs_cons_empty]
          · rw [filtered_nocs_cons_some tier noc rest hns]
            constructor
            · rintro (h | h)
              · exact Or.inl h
              · exact Or.inr (List.mem_cons_of_mem _ h)
            · rintro (h | h)
              · exact Or.inl h
              · rcases List.mem_cons.1 h with rfl | h
                · exact Or.inl hmem
                · exact Or.inr h
      · push_neg at hskip
        obtain ⟨hne, hnotmem⟩ := hskip
        have hstep : tierFoldStep cn label st (tier, some noc)
            = (st.1 || decide (noc = "USA"), noc :: st.2.1,
              st.2.2 ++ [⟨tier ++ "_country", some noc,
                (cn noc).getD noc ++ " " ++ label ++ " 2026 Olympics",
                pyTitle tier ++ " medal country perspective"⟩]) := by
          unfold tierFoldStep
          simp only
          rw [if_neg (by push_neg; exact ⟨hne, hnotmem⟩)]
        rw [hstep]
        have hq : isCountryQuery ⟨tier ++ "_country", some noc,
            (cn noc).getD noc ++ " " ++ label ++ " 2026 Olympics",
            pyTitle tier ++ " medal country perspective"⟩ = true := by
          simp [isCountryQuery, bne_iff_ne, appendCountry_ne_usa tier]
        have hsingle : ∀ n, countNocQueries n [(⟨tier ++ "_country", some noc,
            (cn noc).getD noc ++ " " ++ label ++ " 2026 Olympics",
            pyTitle tier ++ " medal country perspective"⟩ : Query)]
            = if noc = n then 1 else 0 := by
          intro n
          by_cases hn : noc = n
          · subst hn
            simp [countNocQueries, List.filter_cons, hq]
          · simp [countNocQueries, List.filter_cons, hq, hn]
        have h1' : (noc :: st.2.1).Nodup := List.nodup_cons.2 ⟨hnotmem, h1⟩
        have h2' : ∀ n, countNocQueries n (st.2.2 ++ [⟨tier ++ "_country", some noc,
            (cn noc).getD noc ++ " " ++ label ++ " 2026 Olympics",
            pyTitle tier ++ " medal country perspective"⟩])
            = if n ∈ noc :: st.2.1 then 1 else 0 := by
          intro n
          rw [countNocQueries_append, h2 n, hsingle n]
          by_cases hn : n = noc
          · subst hn
            rw [if_neg hnotmem, if_pos rfl, if_pos (List.mem_cons_self _ _)]
          · rw [if_neg (fun hh : noc = n => hn hh.symm)]
            by_cases hm : n ∈ st.2.1
            · rw [if_pos hm, if_pos (List.mem_cons_of_mem _ hm)]
            · rw [if_neg hm, if_neg (fun hh => hm (by
                rcases List.mem_cons.1 hh with h | h
                · exact absurd h hn
                · exact h))]
        have h3' : (st.1 || decide (noc = "USA"))
            = decide ("USA" ∈ noc :: st.2.1) := by
          rw [h3]
          by_cases hu : noc = "USA"
          · subst hu
            simp
          · have hiff : ("USA" ∈ noc :: st.2.1) ↔ ("USA" ∈ st.2.1) := by
              constructor
              · intro h
                rcases List.mem_cons.1 h with h | h
                · exact absurd h.symm hu
                · exact h
              · exact fun h => List.mem_cons_of_mem _ h
            rw [show decide ("USA" ∈ noc :: st.2.1) = decide ("USA" ∈ st.2.1)
              from decide_eq_decide.mpr hiff]
            have : decide (noc = "USA") = false := decide_eq_false hu
            rw [this, Bool.or_false]
        have h4' : ∀ q ∈ st.2.2 ++ [(⟨tier ++ "_country", some noc,
            (cn noc).getD noc ++ " " ++ label ++ " 2026 Olympics",
            pyTitle tier ++ " medal country perspective"⟩ : Query)], q.qtype ≠ "usa" := by
          intro q hmem
          rcases List.mem_append.1 hmem with h | h
          · exact h4 q h
          · rcases List.mem_singleton.1 h with rfl
            exact appendCountry_ne_usa tier
        have h5' : ∀ n ∈ noc :: st.2.1, n ≠ "" := by
          intro n hmem
          rcases List.mem_cons.1 hmem with rfl | hmem
          · exact hne
          · exact h5 n hmem
        obtain ⟨g1, g2, g3, g4, g5, g6⟩ := ih (st.1 || decide (noc = "USA"),
          noc :: st.2.1, st.2.2 ++ [⟨tier ++ "_country", some noc,
            (cn noc).getD noc ++ " " ++ label ++ " 2026 Olympics",
            pyTitle tier ++ " medal country perspective"⟩]) h1' h2' h3' h4' h5'
        refine ⟨g1, g2, g3, g4, g5, fun n => ?_⟩
        rw [g6 n, filtered_nocs_cons_some tier noc rest hne]
        simp only [List.mem_cons]
        tauto

/-- C3: for every event context, the resolver emits exactly one country
query per distinct NOC among the gold, silver, bronze and winner tiers (no
duplicate even when two tiers share a country), and exactly one USA-angle
query iff USA is not among those tier NOCs; for the scenario event with
gold JPN, silver JPN, bronze USA the query list is exactly general, JPN
gold-country, USA bronze-country — three queries, not four. -/
theorem C3_resolver_query_set (ctx : EventContext) (cn : String → Option String) :
    (∀ n, countNocQueries n (resolve_queries ctx cn)
        = if n ∈ tierNocs (get_medal_nocs ctx.results) then 1 else 0)
    ∧ usaQueryCount (resolve_queries ctx cn)
        = (if "USA" ∈ tierNocs (get_medal_nocs ctx.results) then 0 else 1)
    ∧ (resolve_queries scenarioCtx scenarioCountryName).map (fun q => (q.qtype, q.noc))
        = [("general", none), ("gold_country", some "JPN"), ("bronze_country", some "USA")]
    ∧ (resolve_queries scenarioCtx scenarioCountryName).length = 3 := by
  have main : ∀ (st : Bool × List String × List Query),
      (∀ n, countNocQueries n st.2.2 = if n ∈ st.2.1 then 1 else 0) →
      st.1 = decide ("USA" ∈ st.2.1) →
      (∀ q ∈ st.2.2, q.qtype ≠ "usa") →
      (∀ m, m ∈ st.2.1 ↔ m ∈ tierNocs (get_medal_nocs ctx.results)) →
      ((∀ n, countNocQueries n (if st.1 then st.2.2
          else st.2.2 ++ [⟨"usa", some "USA",
            "Team USA " ++ build_event_label ctx.discipline ctx.event ++ " 2026 Olympics",
            "US audience perspective"⟩])
          = if n ∈ tierNocs (get_medal_nocs ctx.results) then 1 else 0)
        ∧ usaQueryCount (if st.1 then st.2.2
          else st.2.2 ++ [⟨"usa", some "USA",
            "Team USA " ++ build_event_label ctx.discipline ctx.event ++ " 2026 Olympics",
            "US audience perspective"⟩])
          = (if "USA" ∈ tierNocs (get_medal_nocs ctx.results) then 0 else 1)) := by
    rintro ⟨b, seen, qs⟩ hcount husa hnousa hiff
    dsimp only at hcount husa hnousa hiff ⊢
    have hqs0 : usaQueryCount qs = 0 := by
      unfold usaQueryCount
      rw [List.length_eq_zero, List.filter_eq_nil_iff]
      intro q hq
      simp [hnousa q hq]
    cases b with
    | true =>
      have hUSA : "USA" ∈ tierNocs (get_medal_nocs ctx.results) := by
        rw [← hiff]
        exact of_decide_eq_true husa.symm
      constructor
      · intro n
        show countNocQueries n qs = _
        rw [hcount n, if_congr (hiff n) rfl rfl]
      · show usaQueryCount qs = _
        rw [if_pos hUSA, hqs0]
    | false =>
      have hUSA : "USA" ∉ tierNocs (get_medal_nocs ctx.results) := by
        rw [← hiff]
        intro h
        exact absurd (husa.trans (decide_eq_true h)) (by simp)
      constructor
      · intro n
        show countNocQueries n (qs ++ [⟨"usa", some "USA",
          "Team USA " ++ build_event_label ctx.discipline ctx.event ++ " 2026 Olympics",
          "US audience perspective"⟩]) = _
        rw [countNocQueries_append, hcount n, if_congr (hiff n) rfl rfl]
        have h0 : countNocQueries n [(⟨"usa", some "USA",
            "Team USA " ++ build_event_label ctx.discipline ctx.event ++ " 2026 Olympics",
            "US audience perspective"⟩ : Query)] = 0 := by
          simp [countNocQueries, isCountryQuery]
        rw [h0, Nat.add_zero]
      · show usaQueryCount (qs ++ [⟨"usa", some "USA",
          "Team USA " ++ build_event_label ctx.discipline ctx.event ++ " 2026 Olympics",
          "US audience perspective"⟩]) = _
        rw [if_neg hUSA, usaQueryCount_append, hqs0]
        have h1 : usaQueryCount [(⟨"usa", some "USA",
            "Team USA " ++ build_event_label ctx.discipline ctx.event ++ " 2026 Olympics",
            "US audience perspective"⟩ : Query)] = 1 := by
          simp [usaQueryCount]
        rw [h1]
  obtain ⟨g1, g2, g3, g4, g5, g6⟩ := tierFold_invariant cn
    (build_event_label ctx.discipline ctx.event) (tierList (get_medal_nocs ctx.results))
    (false, [],
      [⟨"general", none,
        (if ctx.medal_flag ≠ 0 then
          build_event_label ctx.discipline ctx.event ++ " 2026 Winter Olympics results"
        else build_event_label ctx.discipline ctx.event ++ " " ++ ctx.unit_name
          ++ " 2026 Winter Olympics results"), "Main event coverage"⟩])
    (by simp)
    (by intro n; simp [countNocQueries, isCountryQuery])
    (by simp)
    (by intro q hq; rcases List.mem_singleton.1 hq with rfl; simp)
    (by simp)
  have hmem : ∀ m, (m ∈ ((tierList (get_medal_nocs ctx.results)).foldl
      (tierFoldStep cn (build_event_label ctx.discipline ctx.event))
      (false, [],
        [⟨"general", none,
          (if ctx.medal_flag ≠ 0 then
            build_event_label ctx.discipline ctx.event ++ " 2026 Winter Olympics results"
          else build_event_label ctx.discipline ctx.event ++ " " ++ ctx.unit_name
            ++ " 2026 Winter Olympics results"), "Main event coverage"⟩])).2.1)
      ↔ m ∈ tierNocs (get_medal_nocs ctx.results) := by
    intro m
    rw [g6 m]
    simp [tierNocs]
  have hout := main ((tierList (get_medal_nocs ctx.results)).foldl
      (tierFoldStep cn (build_event_label ctx.discipline ctx.event))
      (false, [],
        [⟨"general", none,
          (if ctx.medal_flag ≠ 0 then
            build_event_label ctx.discipline ctx.event ++ " 2026 Winter Olympics results"
          else build_event_label ctx.discipline ctx.event ++ " " ++ ctx.unit_name
            ++ " 2026 Winter Olympics results"), "Main event coverage"⟩]))
    g2 g3 g4 hmem
  exact ⟨hout.1, hout.2, by decide, by decide⟩

/-! ### Claim C4: scraper selection invariants -/

theorem fetch_article_text_spec (f : String → Option Fetched) (url : String)
    (a : Article) (h : fetch_article_text f url = some a) :
    a.url = url ∧ a.domain = urlDomain url ∧ a.domain ∉ SKIP_DOMAINS := by
  unfold fetch_article_text at h
  by_cases hd : urlDomain url ∈ SKIP_DOMAINS
  · rw [if_pos hd] at h
    exact absurd h (by simp)
  · rw [if_neg hd] at h
    cases ho : f url with
    | none => rw [ho] at h; exact absurd h (by simp)
    | some d =>
      rw [ho] at h
      dsimp only at h
      by_cases hlen : ((trimChars d.text.toList).asString).length < 200
      · rw [if_pos hlen] at h
        exact absurd h (by simp)
      · rw [if_neg hlen] at h
        injection h with h
        subst h
        exact ⟨rfl, rfl, hd⟩

theorem scrapeLoop_spec (f : String → Option Fetched) (qtype qreason : String) :
    ∀ (rs : List SearchResult) (st : ScrapeState) (cnt : Nat), ScrapeInv st →
    ScrapeInv (scrapeLoop f qtype qreason rs st cnt)
    ∧ (∃ new, (scrapeLoop f qtype qreason rs st cnt).articles = st.articles ++ new
        ∧ (∀ a ∈ new, a.query_type = qtype)
        ∧ cnt + new.length ≤ max MAX_ARTICLES_PER_QUERY cnt)
    ∧ (∀ u ∈ st.seen_urls, u ∈ (scrapeLoop f qtype qreason rs st cnt).seen_urls)
    ∧ (∀ d ∈ st.seen_domains, d ∈ (scrapeLoop f qtype qreason rs st cnt).seen_domains) := by
  intro rs
  induction rs with
  | nil =>
    intro st cnt hinv
    refine ⟨hinv, ⟨[], by simp [scrapeLoop], by simp, ?_⟩, fun u hu => hu, fun d hd => hd⟩
    simpa using Nat.le_max_right MAX_ARTICLES_PER_QUERY cnt
  | cons r rest ih =>
    intro st cnt hinv
    rw [scrapeLoop]
    by_cases h1 : MAX_ARTICLES_PER_QUERY ≤ cnt
    · rw [if_pos h1]
      refine ⟨hinv, ⟨[], by simp, by simp, ?_⟩, fun u hu => hu, fun d hd => hd⟩
      simpa using Nat.le_max_right MAX_ARTICLES_PER_QUERY cnt
    · rw [if_neg h1]
      by_cases h2 : MAX_TOTAL_ARTICLES ≤ st.articles.length
      · rw [if_pos h2]
        refine ⟨hinv, ⟨[], by simp, by simp, ?_⟩, fun u hu => hu, fun d hd => hd⟩
        simpa using Nat.le_max_right MAX_ARTICLES_PER_QUERY cnt
      · rw [if_neg h2]
        by_cases h3 : r.link ∈ st.seen_urls
        · rw [if_pos h3]
          exact ih st cnt hinv
        · rw [if_neg h3]
          by_cases h4 : urlDomain r.link ∈ st.seen_domains
              ∧ 2 ≤ (st.articles.filter (fun a => a.domain = urlDomain r.link)).length
          · rw [if_pos h4]
            exact ih st cnt hinv
          · rw [if_neg h4]
            cases hf : fetch_article_text f r.link with
            | none =>
              dsimp only
              obtain ⟨hi1, hi2, hi3, hi4, hi5, hi6⟩ := hinv
              have hinv2 : ScrapeInv ⟨st.articles, r.link :: st.seen_urls,
                  st.seen_domains⟩ :=
                ⟨hi1, hi2, fun a ha => List.mem_cons_of_mem _ (hi3 a ha), hi4, hi5, hi6⟩
              obtain ⟨j1, j2, j3, j4⟩ := ih _ cnt hinv2
              exact ⟨j1, j2,
                fun u hu => j3 u (List.mem_cons_of_mem _ hu),
                j4⟩
            | some a =>
              dsimp only
              obtain ⟨ha1, ha2, ha3⟩ := fetch_article_text_spec f r.link a hf
              obtain ⟨hi1, hi2, hi3, hi4, hi5, hi6⟩ := hinv
              have hurlnotin : a.url ∉ st.articles.map Article.url := by
                intro hmem
                obtain ⟨a0, ha0, ha0u⟩ := List.mem_map.1 hmem
                apply h3
                rw [← ha1, ← ha0u]
                exact hi3 a0 ha0
              have hdomcnt :
                  (st.articles.filter (fun b => b.domain = urlDomain r.link)).length ≤ 1 := by
                rcases not_and_or.1 h4 with hnd | hcnt
                · by_contra hgt
                  push_neg at hgt
                  have hex : ∃ b ∈ st.articles, b.domain = urlDomain r.link := by
                    have hne : (st.articles.filter
                        (fun b => b.domain = urlDomain r.link)) ≠ [] := by
                      intro hnil
                      rw [hnil] at hgt
                      simp at hgt
                    obtain ⟨b, hb⟩ := List.exists_mem_of_ne_nil _ hne
                    exact ⟨b, (List.mem_filter.1 hb).1,
                      by have := (List.mem_filter.1 hb).2; simpa using this⟩
                  obtain ⟨b, hbmem, hbd⟩ := hex
                  exact hnd (hbd ▸ hi4 b hbmem)
                · omega
              set a2 : Article := { a with
                query_type := qtype
                query_reason := qreason
                snippet := r.snippet } with ha2def
              have hinv2 : ScrapeInv ⟨st.articles ++ [a2], r.link :: st.seen_urls,
                  urlDomain r.link :: st.seen_domains⟩ := by
                refine ⟨?_, ?_, ?_, ?_, ?_, ?_⟩
                · rw [List.length_append]
                  simp only [List.length_singleton]
                  simp only [MAX_TOTAL_ARTICLES] at h2 ⊢
                  omega
                · rw [List.map_append, List.nodup_append]
                  refine ⟨hi2, by simp, ?_⟩
                  intro u hu hu2
                  simp only [List.map_cons, List.map_nil, List.mem_singleton] at hu2
                  rw [hu2] at hu
                  exact hurlnotin (by simpa [ha2def] using hu)
                · intro b hb
                  rcases List.mem_append.1 hb with hb | hb
                  · exact List.mem_cons_of_mem _ (hi3 b hb)
                  · rcases List.mem_singleton.1 hb with rfl
                    simp [ha2def, ha1]
                · intro b hb
                  rcases List.mem_append.1 hb with hb | hb
                  · exact List.mem_cons_of_mem _ (hi4 b hb)
                  · rcases List.mem_singleton.1 hb with rfl
                    simp [ha2def, ha2]
                · intro d
                  rw [List.filter_append, List.length_append]
                  by_cases hd : a2.domain = d
                  · have had : a.domain = d := hd
                    have hone : (List.filter (fun a => a.domain = d) [a2]).length = 1 := by
                      simp [List.filter_singleton, had]
                    rw [hone]
                    have hsub : st.articles.filter (fun b => b.domain = d)
                        = st.articles.filter (fun b => b.domain = urlDomain r.link) := by
                      congr 1
                      funext b
                      rw [← hd]
                      simp [ha2def, ha2]
                    rw [hsub]
                    omega
                  · have had : ¬(a.domain = d) := hd
                    have hzero : (List.filter (fun a => a.domain = d) [a2]).length = 0 := by
                      simp [List.filter_singleton, had]
                    rw [hzero]
                    have := hi5 d
                    omega
                · intro b hb
                  rcases List.mem_append.1 hb with hb | hb
                  · exact hi6 b hb
                  · rcases List.mem_singleton.1 hb with rfl
                    simpa [ha2def] using ha3
              obtain ⟨j1, j2, j3, j4⟩ := ih _ (cnt + 1) hinv2
              refine ⟨j1, ?_, ?_, ?_⟩
              · obtain ⟨new, hnew, hnewt, hnewlen⟩ := j2
                refine ⟨a2 :: new, ?_, ?_, ?_⟩
                · rw [hnew]
                  simp
                · intro b hb
                  rcases List.mem_cons.1 hb with rfl | hb
                  · simp [ha2def]
                  · exact hnewt b hb
                · simp only [List.length_cons]
                  simp only [MAX_ARTICLES_PER_QUERY] at h1 hnewlen ⊢
                  omega
              · intro u hu
                exact j3 u (List.mem_cons_of_mem _ hu)
              · intro d hd
                exact j4 d (List.mem_cons_of_mem _ hd)

theorem scrapeFold_spec (search : String → List SearchResult)
    (f : String → Option Fetched) :
    ∀ (qs : List Query) (st : ScrapeState),
    (qs.map Query.qtype).Nodup →
    ScrapeInv st →
    (∀ q ∈ qs, (st.articles.filter (fun a => a.query_type = q.qtype)).length = 0) →
    (∀ t, (st.articles.filter (fun a => a.query_type = t)).length
        ≤ MAX_ARTICLES_PER_QUERY) →
    ScrapeInv (qs.foldl
        (fun st q => scrapeLoop f q.qtype q.reason (search q.query) st 0) st)
    ∧ ∀ t, ((qs.foldl
        (fun st q => scrapeLoop f q.qtype q.reason (search q.query) st 0) st).articles.filter
        (fun a => a.query_type = t)).length ≤ MAX_ARTICLES_PER_QUERY := by
  intro qs
  induction qs with
  | nil =>
    intro st _ hinv _ hall
    exact ⟨hinv, hall⟩
  | cons q rest ih =>
    intro st hnodup hinv hzero hall
    rw [List.foldl_cons]
    obtain ⟨j1, ⟨new, hnew, hnewt, hnewlen⟩, _, _⟩ :=
      scrapeLoop_spec f q.qtype q.reason (search q.query) st 0 hinv
    have hnodup2 : (rest.map Query.qtype).Nodup := by
      rw [List.map_cons, List.nodup_cons] at hnodup
      exact hnodup.2
    have hqnotin : q.qtype ∉ rest.map Query.qtype := by
      rw [List.map_cons, List.nodup_cons] at hnodup
      exact hnodup.1
    have hcount : ∀ t, ((scrapeLoop f q.qtype q.reason (search q.query) st 0).articles.filter
        (fun a => a.query_type = t)).length
        = (st.articles.filter (fun a => a.query_type = t)).length
          + (new.filter (fun a => a.query_type = t)).length := by
      intro t
      rw [hnew, List.filter_append, List.length_append]
    have hnewother : ∀ t, t ≠ q.qtype →
        (new.filter (fun a => a.query_type = t)).length = 0 := by
      intro t ht
      rw [List.length_eq_zero, List.filter_eq_nil_iff]
      intro b hb
      simp only [decide_eq_true_eq]
      rw [hnewt b hb]
      exact fun hh => ht hh.symm
    apply ih
    · exact hnodup2
    · exact j1
    · intro q2 hq2
      rw [hcount q2.qtype]
      have hz : (st.articles.filter (fun a => a.query_type = q2.qtype)).length = 0 :=
        hzero q2 (List.mem_cons_of_mem _ hq2)
      have hne : q2.qtype ≠ q.qtype := by
        intro h
        exact hqnotin (h ▸ List.mem_map_of_mem Query.qtype hq2)
      rw [hz, hnewother q2.qtype hne]
    · intro t
      rw [hcount t]
      by_cases ht : t = q.qtype
      · subst ht
        have hz : (st.articles.filter (fun a => a.query_type = q.qtype)).length = 0 :=
          hzero q (List.mem_cons_self _ _)
        rw [hz]
        have hle : (new.filter (fun a => a.query_type = q.qtype)).length ≤ new.length :=
          List.length_filter_le _ _
        simp only [MAX_ARTICLES_PER_QUERY] at hnewlen ⊢
        omega
      · rw [hnewother t ht]
        have := hall t
        omega

/-- C4: whatever the search results and page fetches, the accepted article
list never exceeds the total ceiling of 12, never contains more than 3
articles from a single query, never contains a url twice, never contains
more than two articles from one domain, and never contains an article from
a skip-listed social or video domain. The per-query bound is stated per
query type; the resolver always emits queries with pairwise distinct
types. -/
theorem C4_scraper_invariants (search : String → List SearchResult)
    (f : String → Option Fetched) (queries : List Query)
    (hnodup : (queries.map Query.qtype).Nodup) :
    (scrape_for_event search f queries).length ≤ MAX_TOTAL_ARTICLES
    ∧ ((scrape_for_event search f queries).map Article.url).Nodup
    ∧ (∀ a ∈ scrape_for_event search f queries,
        ((scrape_for_event search f queries).filter
          (fun b => b.query_type = a.query_type)).length ≤ MAX_ARTICLES_PER_QUERY)
    ∧ (∀ a ∈ scrape_for_event search f queries,
        ((scrape_for_event search f queries).filter
          (fun b => b.domain = a.domain)).length ≤ 2)
    ∧ (∀ a ∈ scrape_for_event search f queries, a.domain ∉ SKIP_DOMAINS) := by
  obtain ⟨⟨k1, k2, _, _, k5, k6⟩, k7⟩ := scrapeFold_spec search f queries ⟨[], [], []⟩
    hnodup ⟨by simp, by simp, by simp, by simp, by simp, by simp⟩
    (by simp) (by simp)
  refine ⟨k1, k2, ?_, ?_, k6⟩
  · intro a _
    exact k7 a.query_type
  · intro a _
    exact k5 a.domain

/-- Witness for C4: one query, a search oracle with no results, a fetcher
that always fails. -/
theorem C4_scraper_invariants_witness :
    (scrape_for_event (fun _ => []) (fun _ => none)
        [⟨"general", none, "q", "r"⟩]).length ≤ MAX_TOTAL_ARTICLES
    ∧ ((scrape_for_event (fun _ => []) (fun _ => none)
        [⟨"general", none, "q", "r"⟩]).map Article.url).Nodup
    ∧ (∀ a ∈ scrape_for_event (fun _ => []) (fun _ => none)
          [⟨"general", none, "q", "r"⟩],
        ((scrape_for_event (fun _ => []) (fun _ => none)
          [⟨"general", none, "q", "r"⟩]).filter
          (fun b => b.query_type = a.query_type)).length ≤ MAX_ARTICLES_PER_QUERY)
    ∧ (∀ a ∈ scrape_for_event (fun _ => []) (fun _ => none)
          [⟨"general", none, "q", "r"⟩],
        ((scrape_for_event (fun _ => []) (fun _ => none)
          [⟨"general", none, "q", "r"⟩]).filter
          (fun b => b.domain = a.domain)).length ≤ 2)
    ∧ (∀ a ∈ scrape_for_event (fun _ => []) (fun _ => none)
          [⟨"general", none, "q", "r"⟩], a.domain ∉ SKIP_DOMAINS) :=
  C4_scraper_invariants (fun _ => []) (fun _ => none)
    [⟨"general", none, "q", "r"⟩] (by decide)

/-! ### Claim C7: structure of the consolidated document -/

theorem strApp_data_length (s t : String) :
    (s ++ t).data.length = s.data.length + t.data.length := by
  rw [String.data_append, List.length_append]

theorem strApp_getElem (s t : String) (k : Nat) (h : k < s.data.length) :
    (s ++ t).data[k]? = s.data[k]? := by
  rw [String.data_append]
  exact List.getElem?_append_left h

theorem header_prefix_char (i : Nat) (d : String) (k : Nat) (hk : k < 11) :
    ("=== SOURCE " ++ toString i ++ ": " ++ d ++ " ===").data[k]?
      = ("=== SOURCE " : String).data[k]? := by
  have l1 : ("=== SOURCE " : String).data.length = 11 := rfl
  have b1 : k < ("=== SOURCE " : String).data.length := by omega
  have b2 : k < ("=== SOURCE " ++ toString i).data.length := by
    rw [strApp_data_length, l1]
    omega
  have b3 : k < ("=== SOURCE " ++ toString i ++ ": ").data.length := by
    rw [strApp_data_length, strApp_data_length, l1]
    omega
  have b4 : k < ("=== SOURCE " ++ toString i ++ ": " ++ d).data.length := by
    rw [strApp_data_length, strApp_data_length, strApp_data_length, l1]
    omega
  rw [strApp_getElem _ _ k b4, strApp_getElem _ _ k b3, strApp_getElem _ _ k b2,
    strApp_getElem _ _ k b1]

theorem not_sourceHeader_of_char (l : String)
    (h : l.data[0]? ≠ some (Char.ofNat 61) ∨ l.data[4]? ≠ some (Char.ofNat 83)) :
    ¬ isSourceHeaderLine l := by
  rintro ⟨i, d, rfl⟩
  rcases h with h | h
  · exact h (by rw [header_prefix_char i d 0 (by omega)]; decide)
  · exact h (by rw [header_prefix_char i d 4 (by omega)]; decide)

theorem contextLines_not_header (resolved : Resolved) :
    ∀ l ∈ contextLines resolved, ¬ isSourceHeaderLine l := by
  intro l hl
  simp only [contextLines, List.mem_cons, List.not_mem_nil, or_false] at hl
  rcases hl with rfl | rfl | rfl | rfl | rfl | rfl
  · exact not_sourceHeader_of_char _ (Or.inr (by decide))
  · refine not_sourceHeader_of_char _ (Or.inl ?_)
    rw [strApp_getElem "Event: " _ 0 (by decide)]
    decide
  · refine not_sourceHeader_of_char _ (Or.inl ?_)
    rw [strApp_getElem "Date: " _ 0 (by decide)]
    decide
  · refine not_sourceHeader_of_char _ (Or.inl ?_)
    rw [strApp_getElem "Discipline: " _ 0 (by decide)]
    decide
  · refine not_sourceHeader_of_char _ (Or.inl ?_)
    rw [strApp_getElem "Medal Event: " _ 0 (by decide)]
    decide
  · exact not_sourceHeader_of_char _ (Or.inl (by decide))

/-- C7: the consolidated document opens with the non-empty event-context
header, the results-section header comes before any source block (no line of
the leading context block is a source header, and the whole source section
sits after the result rows), and with zero articles the explicit no-sources
marker stands in place of the per-article blocks. -/
theorem C7_consolidated_structure (resolved : Resolved) (arts : List Article) :
    (build_consolidated_lines resolved arts).head? = some "=== EVENT CONTEXT ==="
    ∧ "=== EVENT CONTEXT ===" ≠ ""
    ∧ (∃ pre post, build_consolidated_lines resolved arts
        = pre ++ "=== RESULTS (from database - ground truth) ===" :: post
        ∧ (∀ l ∈ pre, ¬ isSourceHeaderLine l)
        ∧ post = resolved.results.map resultLineScraper ++ [""] ++ sourcesLines arts)
    ∧ (arts = [] → build_consolidated_lines resolved arts
        = contextLines resolved ++ resultsLines resolved
          ++ ["=== NO SOURCES FOUND ===",
              "No articles could be fetched for this event.", ""]) := by
  refine ⟨rfl, by decide, ⟨contextLines resolved,
    resolved.results.map resultLineScraper ++ [""] ++ sourcesLines arts, ?_,
    contextLines_not_header resolved, rfl⟩, ?_⟩
  · unfold build_consolidated_lines resultsLines
    simp [List.append_assoc]
  · intro h
    subst h
    unfold build_consolidated_lines sourcesLines
    simp

/-- Witness for C7 at a concrete resolver output with zero articles. -/
theorem C7_consolidated_structure_witness :
    build_consolidated_lines sampleResolved []
      = contextLines sampleResolved ++ resultsLines sampleResolved
        ++ ["=== NO SOURCES FOUND ===",
            "No articles could be fetched for this event.", ""] :=
  (C7_consolidated_structure sampleResolved []).2.2.2 rfl

/-! ### Claim C9: the post-event eligibility query -/

theorem mem_get_post_event_pending (sus : List SU) (results : List ResRow)
    (comm : List CommentaryRow) (now : Int) (su : SU) :
    su ∈ get_post_event_pending sus results comm now ↔
      (su ∈ sus ∧ (∃ r ∈ results, r.euc = su.euc)
        ∧ now - 86400 ≤ su.start_time
        ∧ ¬ ∃ c ∈ comm, c.euc = su.euc ∧ c.ctype = "post_event"
            ∧ c.status ∈ postExclusionStatuses) := by
  unfold get_post_event_pending
  rw [List.mem_mergeSort, List.mem_filter]
  simp only [Bool.and_eq_true, List.any_eq_true, beq_iff_eq, decide_eq_true_eq,
    Bool.not_eq_true']
  constructor
  · rintro ⟨hmem, ⟨⟨r, hr, hre⟩, htime⟩, hexcl⟩
    refine ⟨hmem, ⟨r, hr, hre⟩, htime, ?_⟩
    rintro ⟨c, hc, hce, hct, hcs⟩
    have hin : su.euc ∈ (comm.filter (fun c =>
        c.ctype == "post_event" && postExclusionStatuses.contains c.status)).map
        (fun c => c.euc) := by
      refine List.mem_map.2 ⟨c, List.mem_filter.2 ⟨hc, ?_⟩, hce⟩
      simp only [Bool.and_eq_true, beq_iff_eq]
      exact ⟨hct, List.elem_iff.mpr hcs⟩
    rw [← List.elem_iff] at hin
    have hexcl2 : List.elem su.euc ((comm.filter (fun c =>
        c.ctype == "post_event" && postExclusionStatuses.contains c.status)).map
        (fun c => c.euc)) = false := hexcl
    rw [hin] at hexcl2
    exact absurd hexcl2 (by simp)
  · rintro ⟨hmem, ⟨r, hr, hre⟩, htime, hnoc⟩
    refine ⟨hmem, ⟨⟨r, hr, hre⟩, htime⟩, ?_⟩
    by_contra hcon
    rw [Bool.not_eq_false] at hcon
    have hcon2 : List.elem su.euc ((comm.filter (fun c =>
        c.ctype == "post_event" && postExclusionStatuses.contains c.status)).map
        (fun c => c.euc)) = true := hcon
    rw [List.elem_iff] at hcon2
    obtain ⟨c, hcf, hce⟩ := List.mem_map.1 hcon2
    obtain ⟨hc, hp⟩ := List.mem_filter.1 hcf
    simp only [Bool.and_eq_true, beq_iff_eq] at hp
    exact hnoc ⟨c, hc, hce, hp.1, List.elem_iff.mp hp.2⟩

/-- C9 counterexample: an event that started 30 hours ago whose results were
detected one hour ago, with no commentary rows at all. The claim as stated
selects it (its results became available within the trailing 24-hour window
and nothing excludes it), but the code, which filters on the event start
time, does not return it. -/
theorem C9_post_pending_counterexample :
    specPostEligible ⟨"E1", 1, -108000⟩ [⟨"E1", -3600⟩] [] 0
    ∧ (⟨"E1", 1, -108000⟩ : SU) ∈ [(⟨"E1", 1, -108000⟩ : SU)]
    ∧ (⟨"E1", 1, -108000⟩ : SU)
        ∉ get_post_event_pending [⟨"E1", 1, -108000⟩] [⟨"E1", -3600⟩] [] 0 := by
  refine ⟨?_, by decide, ?_⟩
  · unfold specPostEligible
    exact ⟨⟨⟨"E1", -3600⟩, by decide⟩, by simp⟩
  · rw [mem_get_post_event_pending]
    intro h
    have hst : (0 : Int) - 86400 ≤ (-108000 : Int) := h.2.2.1
    omega

/-- C9 (amended): the post-event eligibility query selects exactly the
schedule units that have at least one result row and whose start time is at
least 24 hours before now (with no upper bound), and that have no post_event
commentary row whose status is in {published, proofed, writing, analyzing};
the output is ordered medal flag descending, then by start time. -/
theorem C9_post_pending_amended (sus : List SU) (results : List ResRow)
    (comm : List CommentaryRow) (now : Int) :
    (∀ su, su ∈ get_post_event_pending sus results comm now ↔
      (su ∈ sus ∧ (∃ r ∈ results, r.euc = su.euc)
        ∧ now - 86400 ≤ su.start_time
        ∧ ¬ ∃ c ∈ comm, c.euc = su.euc ∧ c.ctype = "post_event"
            ∧ c.status ∈ postExclusionStatuses))
    ∧ (get_post_event_pending sus results comm now).Pairwise
        (fun a b => postOrder a b = true) := by
  constructor
  · exact mem_get_post_event_pending sus results comm now
  · unfold get_post_event_pending
    apply List.sorted_mergeSort
    · intro a b c hab hbc
      unfold postOrder at *
      split_ifs at hab hbc ⊢ <;>
        simp only [decide_eq_true_eq] at * <;> omega
    · intro a b
      unfold postOrder
      split_ifs <;> simp only [Bool.or_eq_true, decide_eq_true_eq] <;> omega

end OlympicsTV
